import Mathlib

/-!
# WS2812 eight-channel bit-parallel driver (`firmware/ext/src/ws28xx.c`)

A shallow embedding of the waveform engine of `ws28xx.c`:

* the bit transposer (`get_channel_byte`, `UNPACK_CHANNEL`, `HANDLE_CHANNEL`,
  `fill_dma_buffer`),
* the refill interrupt handler `DMA2_Stream2_Handler`,
* the frame start `ws2812_refresh`.

Conventions of the embedding.

* C `int` objects are `Int`; every arithmetic result is wrapped with `toI32`
  (two's complement, which is what the Cortex-M4 target computes where ISO C
  leaves signed overflow undefined, and what GCC defines for the conversion
  of an out-of-range `uint32_t` to `int`). `uint32_t` / `uint16_t` /
  `uint8_t` objects are `Nat`, reduced modulo `2^32` / `2^16` / `2^8` where
  the C code stores them. Mixed `int` / `uint32_t` comparisons convert the
  `int` operand with `toU32`, as the usual arithmetic conversions do.
* Memory-mapped registers are not interpreted. Every access the code makes is
  appended, in program order, to the hardware trace `Engine.hw`; the masks of
  the device header `stm32f4xx.h` (not part of the sources) stay symbolic
  (`Mask`). The only register that is read back is `DMA2->LISR`, modelled by
  its three stream-2 flags; a write to `DMA2->LIFCR` clears the flags it names.
* `Engine.slot_writes` is a ghost counter of the stores into `dma_buffer`.
-/

namespace WS28xx

/-! ## Constants (`ws28xx.c`, lines 3-44) -/

def TIMER1_FREQ_HZ : Nat := 168000000

def WS2812_TIMER_PERIOD : Nat := ((TIMER1_FREQ_HZ / 1000) * 125) / 100000
def WS2812_TIMER_PWM_CH1_TIME : Nat := ((TIMER1_FREQ_HZ / 1000) * 40) / 100000
def WS2812_TIMER_PWM_CH2_TIME : Nat := ((TIMER1_FREQ_HZ / 1000) * 80) / 100000
def RESET_TIMER_PERIOD : Nat := WS2812_TIMER_PERIOD * 240

def WS2812_NUM_CHANNELS : Nat := 8
def WS212_ALL_CHANNELS_SAME_LENGTH : Nat := 0

def WS2812_CH0_GPIO : Nat := 0
def WS2812_CH1_GPIO : Nat := 1
def WS2812_CH2_GPIO : Nat := 2
def WS2812_CH3_GPIO : Nat := 3
def WS2812_CH4_GPIO : Nat := 4
def WS2812_CH5_GPIO : Nat := 5
def WS2812_CH6_GPIO : Nat := 6
def WS2812_CH7_GPIO : Nat := 7

def DMA_BUFFER_SIZE : Nat := 16
def DMA_BUFFER_FILL_SIZE : Nat := DMA_BUFFER_SIZE / 2

/-- The table `ws2812_channel_gpio_map` (lines 60-69). -/
def ws2812_channel_gpio_map (i : Fin 8) : Nat :=
  match i with
  | ⟨0, _⟩ => WS2812_CH0_GPIO
  | ⟨1, _⟩ => WS2812_CH1_GPIO
  | ⟨2, _⟩ => WS2812_CH2_GPIO
  | ⟨3, _⟩ => WS2812_CH3_GPIO
  | ⟨4, _⟩ => WS2812_CH4_GPIO
  | ⟨5, _⟩ => WS2812_CH5_GPIO
  | ⟨6, _⟩ => WS2812_CH6_GPIO
  | ⟨_, _⟩ => WS2812_CH7_GPIO

/-! ## Machine integers -/

/-- Conversion of a C `int` to `uint32_t` (reduction modulo `2^32`). -/
def toU32 (x : Int) : Nat := (x % 4294967296).toNat

/-- Wrap of a mathematical integer into the range of a C `int`
(two's complement, 32 bits); also the conversion `uint32_t` to `int`. -/
def toI32 (x : Int) : Int := (x + 2147483648) % 4294967296 - 2147483648

/-- The values a C `int` can hold. -/
def IsInt32 (x : Int) : Prop := -2147483648 ≤ x ∧ x ≤ 2147483647

instance (x : Int) : Decidable (IsInt32 x) := by
  unfold IsInt32; infer_instance

/-! ## Channel descriptors (`ws28xx.h`) -/

/-- The descriptor `struct led_channel_info`. The borrowed frame is the memory
seen through the pointer `framebuffer`, indexed by the (signed) offset. -/
structure led_channel_info where
  framebuffer : Int → Nat
  length_in_bytes : Nat
  channel_number : Nat

/-! ## Bit transposer (lines 175-245) -/

/-- Thumb-2 `ubfx rd, rn, #lsb, #width`: unsigned bit-field extract. -/
def ubfx (rn lsb width : Nat) : Nat := (rn >>> lsb) % 2 ^ width

/-- Thumb-2 `bfi rd, rn, #lsb, #width` on a 32-bit register: replace the
bits `lsb .. lsb+width-1` of `rd` by the low `width` bits of `rn`. -/
def bfi (rd rn lsb width : Nat) : Nat :=
  (rd &&& (4294967295 ^^^ ((2 ^ width - 1) <<< lsb))) ||| ((rn % 2 ^ width) <<< lsb)

/-- The eight accumulator registers `cur0 .. cur7` of `fill_dma_buffer`. -/
structure CurRegs where
  cur0 : Nat
  cur1 : Nat
  cur2 : Nat
  cur3 : Nat
  cur4 : Nat
  cur5 : Nat
  cur6 : Nat
  cur7 : Nat

/-- Register `cur<j>`. -/
def CurRegs.word (c : CurRegs) (j : Fin 8) : Nat :=
  match j with
  | ⟨0, _⟩ => c.cur0
  | ⟨1, _⟩ => c.cur1
  | ⟨2, _⟩ => c.cur2
  | ⟨3, _⟩ => c.cur3
  | ⟨4, _⟩ => c.cur4
  | ⟨5, _⟩ => c.cur5
  | ⟨6, _⟩ => c.cur6
  | ⟨_, _⟩ => c.cur7

/-- The inline assembly `UNPACK_CHANNEL(gpio_num)` (lines 180-207): bit `7-k`
of `ch_val` is inserted into `cur<k>` at bit position `gpio_num`. -/
def UNPACK_CHANNEL (gpio_num : Nat) (ch_val : Nat) (c : CurRegs) : CurRegs :=
  { cur0 := bfi c.cur0 (ubfx ch_val 7 1) gpio_num 1
    cur1 := bfi c.cur1 (ubfx ch_val 6 1) gpio_num 1
    cur2 := bfi c.cur2 (ubfx ch_val 5 1) gpio_num 1
    cur3 := bfi c.cur3 (ubfx ch_val 4 1) gpio_num 1
    cur4 := bfi c.cur4 (ubfx ch_val 3 1) gpio_num 1
    cur5 := bfi c.cur5 (ubfx ch_val 2 1) gpio_num 1
    cur6 := bfi c.cur6 (ubfx ch_val 1 1) gpio_num 1
    cur7 := bfi c.cur7 (ubfx ch_val 0 1) gpio_num 1 }

/-- The function `get_channel_byte` (lines 215-221). `pos` is an `int`, the
length a `uint32_t`: the comparison is unsigned. The result is a `uint8_t`. -/
def get_channel_byte (channel : led_channel_info) (pos : Int) (_channel_number : Nat) : Nat :=
  if WS212_ALL_CHANNELS_SAME_LENGTH ≠ 0 ∨ toU32 pos < channel.length_in_bytes then
    ((channel.framebuffer pos % 256) ^^^ 255) % 256
  else
    255

/-- The macro `HANDLE_CHANNEL(ch_num, gpio_num)` (lines 209-213). -/
def HANDLE_CHANNEL (ch_num gpio_num : Nat) (channels : Fin 8 → led_channel_info)
    (pos : Int) (c : CurRegs) : CurRegs :=
  if h : ch_num < WS2812_NUM_CHANNELS then
    UNPACK_CHANNEL gpio_num (get_channel_byte (channels ⟨ch_num, h⟩) pos ch_num) c
  else
    c

/-- The register part of `fill_dma_buffer` (lines 225-235): the accumulators
start at zero and the eight channels are unpacked in order. -/
def fill_dma_buffer_regs (pos : Int) (channels : Fin 8 → led_channel_info) : CurRegs :=
  let c : CurRegs := ⟨0, 0, 0, 0, 0, 0, 0, 0⟩
  let c := HANDLE_CHANNEL 0 WS2812_CH0_GPIO channels pos c
  let c := HANDLE_CHANNEL 1 WS2812_CH1_GPIO channels pos c
  let c := HANDLE_CHANNEL 2 WS2812_CH2_GPIO channels pos c
  let c := HANDLE_CHANNEL 3 WS2812_CH3_GPIO channels pos c
  let c := HANDLE_CHANNEL 4 WS2812_CH4_GPIO channels pos c
  let c := HANDLE_CHANNEL 5 WS2812_CH5_GPIO channels pos c
  let c := HANDLE_CHANNEL 6 WS2812_CH6_GPIO channels pos c
  let c := HANDLE_CHANNEL 7 WS2812_CH7_GPIO channels pos c
  c

/-- A store `dest[idx] = v` of a `uint16_t` into the 16-slot ring buffer. -/
def store16 (buf : Fin 16 → Nat) (idx : Nat) (v : Nat) : Fin 16 → Nat :=
  fun k => if k.val = idx then v % 65536 else buf k

/-- The function `fill_dma_buffer` (lines 223-245); `dest` is the offset of
the destination pointer inside `dma_buffer`. -/
def fill_dma_buffer (buf : Fin 16 → Nat) (dest : Nat) (pos : Int)
    (channels : Fin 8 → led_channel_info) : Fin 16 → Nat :=
  let c := fill_dma_buffer_regs pos channels
  let buf := store16 buf (dest + 0) c.cur0
  let buf := store16 buf (dest + 1) c.cur1
  let buf := store16 buf (dest + 2) c.cur2
  let buf := store16 buf (dest + 3) c.cur3
  let buf := store16 buf (dest + 4) c.cur4
  let buf := store16 buf (dest + 5) c.cur5
  let buf := store16 buf (dest + 6) c.cur6
  let buf := store16 buf (dest + 7) c.cur7
  buf

/-! ## Hardware accesses -/

/-- The memory-mapped registers the driver touches after initialisation. -/
inductive Reg where
  | GPIOB_BSRR | GPIOB_ODR
  | TIM1_CR1 | TIM1_DIER | TIM1_CCER | TIM1_ARR | TIM1_EGR | TIM1_SR | TIM1_CNT
  | DMA2_LIFCR | DMA2_HIFCR
  | DMA2_Stream1_CR | DMA2_Stream2_CR | DMA2_Stream5_CR
  | DMA2_Stream1_NDTR | DMA2_Stream2_NDTR | DMA2_Stream5_NDTR
  deriving DecidableEq, Repr

/-- The bit masks of the device header that the driver names. -/
inductive Mask where
  | TIM_CR1_CEN | TIM_CR1_UDIS | TIM_CR1_URS
  | TIM_DIER_UDE | TIM_DIER_CC1DE | TIM_DIER_CC2DE | TIM_DIER_UIE
  | TIM_CCER_CC1E | TIM_CCER_CC2E
  | TIM_EGR_UG
  | DMA_SxCR_EN
  | DMA_LIFCR_CTEIF1 | DMA_LIFCR_CHTIF1 | DMA_LIFCR_CTCIF1
  | DMA_LIFCR_CTEIF2 | DMA_LIFCR_CHTIF2 | DMA_LIFCR_CTCIF2
  | DMA_HIFCR_CTEIF5 | DMA_HIFCR_CHTIF5 | DMA_HIFCR_CTCIF5
  deriving DecidableEq, Repr

/-- One register access, as the C statement performs it. A list of masks
stands for their bitwise OR. -/
inductive HwOp where
  /-- The statement `reg = v` with a numeric value. -/
  | write (r : Reg) (v : Nat)
  /-- The statement `reg = m1 | m2 | ...`. -/
  | writeMask (r : Reg) (m : List Mask)
  /-- The statement `reg |= m1 | m2 | ...`. -/
  | setBits (r : Reg) (m : List Mask)
  /-- The statement `reg &= ~(m1 | m2 | ...)`. -/
  | clearBits (r : Reg) (m : List Mask)
  /-- The statement `reg ^= v`. -/
  | toggle (r : Reg) (v : Nat)
  /-- The statement `dst = src`, both registers. -/
  | copy (dst src : Reg)
  deriving DecidableEq, Repr

/-- The register an access writes. -/
def HwOp.reg : HwOp → Reg
  | .write r _ => r
  | .writeMask r _ => r
  | .setBits r _ => r
  | .clearBits r _ => r
  | .toggle r _ => r
  | .copy dst _ => dst

/-- Registers of the timer TIM1. -/
def Reg.isTIM1 : Reg → Bool
  | .TIM1_CR1 | .TIM1_DIER | .TIM1_CCER | .TIM1_ARR | .TIM1_EGR | .TIM1_SR | .TIM1_CNT => true
  | _ => false

/-- The stream-2 flags of `DMA2->LISR` that the handler tests. -/
structure DmaFlags where
  HTIF2 : Bool
  TCIF2 : Bool
  TEIF2 : Bool
  deriving DecidableEq, Repr

/-! ## Engine state (lines 46-58) -/

/-- The file-scope objects of `ws28xx.c`, the stream-2 flags of `DMA2->LISR`,
the trace of register accesses and the ghost counter of ring-buffer stores. -/
structure Engine where
  ws2812_gpio_set_bits : Nat
  dma_buffer : Fin 16 → Nat
  hal_dma_error_flag : Int
  framebuffer_position : Int
  channels_max_length : Int
  led_channels : Fin 8 → led_channel_info
  LISR : DmaFlags
  hw : List HwOp
  slot_writes : Nat

/-- Append one register access to the trace. -/
def emit (op : HwOp) (s : Engine) : Engine :=
  { s with hw := s.hw ++ [op] }

/-- A write `DMA2->LIFCR = m1 | m2 | ...`: recorded, and the stream-2 flags
named by the masks are cleared in `DMA2->LISR`. -/
def lifcr_write (m : List Mask) (s : Engine) : Engine :=
  { s with
    hw := s.hw ++ [HwOp.writeMask Reg.DMA2_LIFCR m]
    LISR :=
      { HTIF2 := s.LISR.HTIF2 && !(m.contains Mask.DMA_LIFCR_CHTIF2)
        TCIF2 := s.LISR.TCIF2 && !(m.contains Mask.DMA_LIFCR_CTCIF2)
        TEIF2 := s.LISR.TEIF2 && !(m.contains Mask.DMA_LIFCR_CTEIF2) } }

/-- The values `i` taken by a loop `for (i = 0; i < bound; i += 8)`. -/
def loop_offsets (bound : Nat) : List Nat :=
  (List.range bound).filter (fun i => i % 8 = 0)

/-- The body shared by the three refill loops:
`fill_dma_buffer(dma_buffer + dest, framebuffer_position, led_channels);
framebuffer_position++;`. -/
def refill (dest : Nat) (s : Engine) : Engine :=
  { s with
    dma_buffer := fill_dma_buffer s.dma_buffer dest s.framebuffer_position s.led_channels
    framebuffer_position := toI32 (s.framebuffer_position + 1)
    slot_writes := s.slot_writes + 8 }

/-- The value `(uint32_t)ws2812_gpio_set_bits << 16`. -/
def bsrr_reset_word (mask : Nat) : Nat := (mask <<< 16) % 4294967296

/-! ## Interrupt handler `DMA2_Stream2_Handler` (lines 248-302) -/

/-- The register accesses of the end-of-frame branch (lines 270-286). -/
def end_of_frame_ops (mask : Nat) : List HwOp :=
  [ HwOp.clearBits Reg.TIM1_CR1 [Mask.TIM_CR1_CEN],
    HwOp.clearBits Reg.TIM1_DIER [Mask.TIM_DIER_UDE, Mask.TIM_DIER_CC1DE, Mask.TIM_DIER_CC2DE],
    HwOp.clearBits Reg.TIM1_CCER [Mask.TIM_CCER_CC1E, Mask.TIM_CCER_CC2E],
    HwOp.write Reg.GPIOB_BSRR (bsrr_reset_word mask),
    HwOp.clearBits Reg.TIM1_CR1 [Mask.TIM_CR1_UDIS, Mask.TIM_CR1_URS],
    HwOp.write Reg.TIM1_ARR (RESET_TIMER_PERIOD - 1),
    HwOp.writeMask Reg.TIM1_EGR [Mask.TIM_EGR_UG],
    HwOp.write Reg.TIM1_SR 0,
    HwOp.setBits Reg.TIM1_DIER [Mask.TIM_DIER_UIE],
    HwOp.setBits Reg.TIM1_CR1 [Mask.TIM_CR1_CEN] ]

/-- The half-transfer part of the handler (lines 251-262). -/
def isr_half_transfer (s : Engine) : Engine :=
  if s.LISR.HTIF2 then
    let s := lifcr_write [Mask.DMA_LIFCR_CHTIF2] s
    if s.framebuffer_position ≥ s.channels_max_length then
      emit (HwOp.write Reg.GPIOB_BSRR (bsrr_reset_word s.ws2812_gpio_set_bits)) s
    else
      (loop_offsets DMA_BUFFER_FILL_SIZE).foldl (fun s i => refill i s) s
  else
    s

/-- The transfer-complete part of the handler (lines 265-294). -/
def isr_transfer_complete (s : Engine) : Engine :=
  if s.LISR.TCIF2 then
    let s := lifcr_write [Mask.DMA_LIFCR_CTCIF2] s
    if s.framebuffer_position ≥ s.channels_max_length then
      { s with hw := s.hw ++ end_of_frame_ops s.ws2812_gpio_set_bits }
    else
      (loop_offsets DMA_BUFFER_FILL_SIZE).foldl
        (fun s i => refill (DMA_BUFFER_FILL_SIZE + i) s) s
  else
    s

/-- The transfer-error part of the handler (lines 297-300). -/
def isr_transfer_error (s : Engine) : Engine :=
  if s.LISR.TEIF2 then
    let s := lifcr_write [Mask.DMA_LIFCR_CTEIF2] s
    { s with hal_dma_error_flag := toI32 (s.hal_dma_error_flag + 1) }
  else
    s

/-- The handler `DMA2_Stream2_Handler`: the three flag checks in order. -/
def DMA2_Stream2_Handler (s : Engine) : Engine :=
  isr_transfer_error (isr_transfer_complete (isr_half_transfer s))

/-! ## Frame start `ws2812_refresh` (lines 319-390) -/

/-- The body of the scan loop (lines 349-354) for channel `i`. -/
def refresh_scan (channels : Fin 8 → led_channel_info) (s : Engine) (i : Fin 8) : Engine :=
  let s :=
    if (channels i).length_in_bytes > toU32 s.channels_max_length then
      { s with channels_max_length := toI32 (channels i).length_in_bytes }
    else s
  let s :=
    if (channels i).length_in_bytes ≠ 0 then
      { s with ws2812_gpio_set_bits :=
          (s.ws2812_gpio_set_bits ||| (1 <<< ws2812_channel_gpio_map i)) % 65536 }
    else s
  s

/-- Lines 359-361: `channels_max_length += 3`, compiled only when
`WS212_ALL_CHANNELS_SAME_LENGTH` is 0. -/
def refresh_terminator (s : Engine) : Engine :=
  if WS212_ALL_CHANNELS_SAME_LENGTH = 0 then
    { s with channels_max_length := toI32 (s.channels_max_length + 3) }
  else s

/-- The function `ws2812_refresh` (the unused parameter `gpio_bank` is left out). -/
def ws2812_refresh (channels : Fin 8 → led_channel_info) (s : Engine) : Engine :=
  let s := emit (HwOp.toggle Reg.GPIOB_ODR (1 <<< 9)) s
  let s := emit (HwOp.setBits Reg.TIM1_EGR [Mask.TIM_EGR_UG]) s
  let s := { s with led_channels := channels }
  let s := emit (HwOp.clearBits Reg.TIM1_CR1 [Mask.TIM_CR1_CEN]) s
  let s := emit (HwOp.clearBits Reg.DMA2_Stream1_CR [Mask.DMA_SxCR_EN]) s
  let s := emit (HwOp.clearBits Reg.DMA2_Stream2_CR [Mask.DMA_SxCR_EN]) s
  let s := emit (HwOp.clearBits Reg.DMA2_Stream5_CR [Mask.DMA_SxCR_EN]) s
  let s := emit (HwOp.clearBits Reg.TIM1_DIER
    [Mask.TIM_DIER_UDE, Mask.TIM_DIER_CC1DE, Mask.TIM_DIER_CC2DE]) s
  let s := { s with channels_max_length := 0 }
  let s := { s with framebuffer_position := 0 }
  let s := { s with ws2812_gpio_set_bits := 0 }
  let s := (loop_offsets DMA_BUFFER_SIZE).foldl (fun s i => refill i s) s
  let s := (List.finRange 8).foldl (refresh_scan channels) s
  let s := { s with channels_max_length := toI32 (s.channels_max_length + DMA_BUFFER_SIZE / 8) }
  let s := refresh_terminator s
  let s := emit (HwOp.writeMask Reg.DMA2_LIFCR
    [Mask.DMA_LIFCR_CTEIF1, Mask.DMA_LIFCR_CHTIF1, Mask.DMA_LIFCR_CTCIF1]) s
  let s := lifcr_write [Mask.DMA_LIFCR_CTEIF2, Mask.DMA_LIFCR_CHTIF2, Mask.DMA_LIFCR_CTCIF2] s
  let s := emit (HwOp.writeMask Reg.DMA2_HIFCR
    [Mask.DMA_HIFCR_CTEIF5, Mask.DMA_HIFCR_CHTIF5, Mask.DMA_HIFCR_CTCIF5]) s
  let s := emit (HwOp.write Reg.TIM1_SR 0) s
  let s := emit (HwOp.clearBits Reg.TIM1_DIER [Mask.TIM_DIER_UIE]) s
  let s := emit (HwOp.write Reg.DMA2_Stream1_NDTR DMA_BUFFER_SIZE) s
  let s := emit (HwOp.write Reg.DMA2_Stream2_NDTR DMA_BUFFER_SIZE) s
  let s := emit (HwOp.write Reg.DMA2_Stream5_NDTR DMA_BUFFER_SIZE) s
  let s := emit (HwOp.setBits Reg.DMA2_Stream1_CR [Mask.DMA_SxCR_EN]) s
  let s := emit (HwOp.setBits Reg.DMA2_Stream2_CR [Mask.DMA_SxCR_EN]) s
  let s := emit (HwOp.setBits Reg.DMA2_Stream5_CR [Mask.DMA_SxCR_EN]) s
  let s := emit (HwOp.setBits Reg.TIM1_DIER
    [Mask.TIM_DIER_UDE, Mask.TIM_DIER_CC1DE, Mask.TIM_DIER_CC2DE]) s
  let s := emit (HwOp.write Reg.TIM1_ARR WS2812_TIMER_PERIOD) s
  let s := emit (HwOp.copy Reg.TIM1_CNT Reg.TIM1_ARR) s
  let s := emit (HwOp.setBits Reg.TIM1_CR1 [Mask.TIM_CR1_CEN]) s
  let s := emit (HwOp.toggle Reg.GPIOB_ODR (1 <<< 9)) s
  s

/-! ## Driving the handler with the stream's events -/

/-- The two refill events of the CLEAR-0 stream. -/
inductive DmaEvent where
  | half_transfer
  | transfer_complete
  deriving DecidableEq, Repr

/-- The hardware asserts the flag of an event in `DMA2->LISR`. -/
def raise (e : DmaEvent) (s : Engine) : Engine :=
  match e with
  | .half_transfer => { s with LISR := { s.LISR with HTIF2 := true } }
  | .transfer_complete => { s with LISR := { s.LISR with TCIF2 := true } }

/-- The circular stream alternates half-transfer and transfer-complete,
starting with half-transfer. -/
def nth_event (n : Nat) : DmaEvent :=
  if n % 2 = 0 then DmaEvent.half_transfer else DmaEvent.transfer_complete

/-- The state after the handler has served the events `0 .. n-1`. -/
def isr_run : Nat → Engine → Engine
  | 0, s => s
  | n + 1, s => DMA2_Stream2_Handler (raise (nth_event n) (isr_run n s))

/-- The register accesses of one handler entry. -/
def handler_ops (s : Engine) : List HwOp :=
  (DMA2_Stream2_Handler { s with hw := [] }).hw

/-- The values one handler entry writes to `GPIOB->BSRR`, in order. -/
def bsrr_writes (s : Engine) : List Nat :=
  (handler_ops s).filterMap (fun op =>
    match op with
    | HwOp.write Reg.GPIOB_BSRR v => some v
    | _ => none)

/-- Whether a handler entry reprograms the timer for the reset-latch period,
which only the end-of-frame branch does. -/
def enters_end_of_frame (s : Engine) : Bool :=
  decide (HwOp.write Reg.TIM1_ARR (RESET_TIMER_PERIOD - 1) ∈ handler_ops s)

/-- Serve the events `n, n+1, ...` until a handler entry takes the
end-of-frame branch; the state after that entry. -/
def run_frame : Nat → Nat → Engine → Option Engine
  | 0, _, _ => none
  | fuel + 1, n, s =>
    let s1 := raise (nth_event n) s
    if enters_end_of_frame s1 then
      some (DMA2_Stream2_Handler s1)
    else
      run_frame fuel (n + 1) (DMA2_Stream2_Handler s1)

/-- The words the transposer produces for byte `pos`. -/
def transposed (channels : Fin 8 → led_channel_info) (pos : Int) (j : Fin 8) : Nat :=
  (fill_dma_buffer_regs pos channels).word j % 65536

/-- Number of bits set among the 16 bits of a GPIO word. -/
def popcount16 (x : Nat) : Nat :=
  ((Finset.range 16).filter (fun k => x.testBit k = true)).card

/-! ## Concrete inputs used by the examples -/

/-- The engine after reset: static storage is zero, no flag pending. -/
def example_idle : Engine :=
  { ws2812_gpio_set_bits := 0
    dma_buffer := fun _ => 0
    hal_dma_error_flag := 0
    framebuffer_position := 0
    channels_max_length := 0
    led_channels := fun i => ⟨fun _ => 0, 0, i.val⟩
    LISR := ⟨false, false, false⟩
    hw := []
    slot_writes := 0 }

/-- Scenario 1: channel 0 holds the single byte `0xA5`, channels 1..7 are empty. -/
def example_A5 : Fin 8 → led_channel_info :=
  fun i => if i = 0 then ⟨fun _ => 165, 1, 0⟩ else ⟨fun _ => 0, 0, i.val⟩

/-- Scenario 4: lengths `[3,1,0,0,0,0,0,0]`. -/
def example_unequal : Fin 8 → led_channel_info :=
  fun i =>
    if i = 0 then ⟨fun p => if p = 0 then 18 else if p = 1 then 52 else 86, 3, 0⟩
    else if i = 1 then ⟨fun _ => 240, 1, 1⟩
    else ⟨fun _ => 0, 0, i.val⟩

/-- A descriptor set whose channel 0 has the largest `uint32_t` length. -/
def example_huge : Fin 8 → led_channel_info :=
  fun i => if i = 0 then ⟨fun _ => 0, 4294967295, 0⟩ else ⟨fun _ => 0, 0, i.val⟩

/-- The reset state with the error counter at `INT_MAX` and the
transfer-error flag asserted. -/
def example_error_saturated : Engine :=
  { example_idle with
    hal_dma_error_flag := 2147483647
    LISR := ⟨false, false, true⟩ }

/-- The engine in the tail of scenario 4: both refill flags pending and the
cursor at `channels_max_length = 8`, mask `0b11`. -/
def example_tail : Engine :=
  { example_idle with
    ws2812_gpio_set_bits := 3
    framebuffer_position := 8
    channels_max_length := 8
    led_channels := example_unequal
    LISR := ⟨true, true, false⟩ }

/-- The engine mid-frame in scenario 4: transfer-complete and transfer-error
pending, cursor 3 of 8. -/
def example_streaming : Engine :=
  { example_idle with
    ws2812_gpio_set_bits := 3
    framebuffer_position := 3
    channels_max_length := 8
    led_channels := example_unequal
    hal_dma_error_flag := 41
    LISR := ⟨false, true, true⟩ }

/-! ## Auxiliary lemmas -/

theorem testBit_allOnes32 (q : Nat) : Nat.testBit 4294967295 q = decide (q < 32) := by
  have h : (4294967295 : Nat) = 2 ^ 32 - 1 := by norm_num
  rw [h, Nat.testBit_two_pow_sub_one]

theorem testBit_bfi_same (rd b g : Nat) (hg : g < 32) :
    (bfi rd b g 1).testBit g = b.testBit 0 := by
  unfold bfi
  simp [Nat.testBit_shiftLeft, Nat.testBit_mod_two_pow, testBit_allOnes32, hg]

theorem testBit_bfi_other (rd b g q : Nat) (h : q ≠ g) (hq : q < 32) :
    (bfi rd b g 1).testBit q = rd.testBit q := by
  unfold bfi
  simp only [Nat.testBit_or, Nat.testBit_and, Nat.testBit_xor, Nat.testBit_shiftLeft,
    testBit_allOnes32, hq, decide_True, Bool.true_xor, pow_one, Nat.add_one_sub_one]
  by_cases hgq : g ≤ q
  · have hpos : 0 < q - g := by omega
    have h1 : Nat.testBit 1 (q - g) = false :=
      Nat.testBit_lt_two_pow (Nat.one_lt_two_pow (by omega))
    have h2 : (b % 2).testBit (q - g) = false :=
      Nat.testBit_lt_two_pow (lt_of_lt_of_le (Nat.mod_lt _ (by norm_num))
        (by
          calc 2 = 2 ^ 1 := by norm_num
            _ ≤ 2 ^ (q - g) := Nat.pow_le_pow_right (by norm_num) hpos))
    simp [hgq, h1, h2]
  · simp [hgq]

theorem testBit_ubfx_one (v k : Nat) : (ubfx v k 1).testBit 0 = v.testBit k := by
  unfold ubfx
  rw [Nat.testBit_mod_two_pow, Nat.testBit_shiftRight]
  simp

theorem testBit_mod_65536 (x q : Nat) :
    (x % 65536).testBit q = (decide (q < 16) && x.testBit q) := by
  have h : (65536 : Nat) = 2 ^ 16 := by norm_num
  rw [h, Nat.testBit_mod_two_pow]

theorem testBit_word_UNPACK (g v : Nat) (c : CurRegs) (j : Fin 8) (q : Nat)
    (hg : g < 32) (hq : q < 32) :
    ((UNPACK_CHANNEL g v c).word j).testBit q =
      if q = g then v.testBit (7 - j.val) else (c.word j).testBit q := by
  by_cases hqg : q = g
  · subst hqg
    simp only [if_true]
    fin_cases j <;>
      (simp only [UNPACK_CHANNEL, CurRegs.word]
       rw [testBit_bfi_same _ _ _ hq, testBit_ubfx_one])
  · simp only [hqg, if_false]
    fin_cases j <;>
      (simp only [UNPACK_CHANNEL, CurRegs.word]
       rw [testBit_bfi_other _ _ _ _ hqg hq])

theorem testBit_transposed (channels : Fin 8 → led_channel_info) (pos : Int) (i j : Fin 8) :
    (transposed channels pos j).testBit (ws2812_channel_gpio_map i) =
      (get_channel_byte (channels i) pos i.val).testBit (7 - j.val) := by
  unfold transposed fill_dma_buffer_regs HANDLE_CHANNEL
  fin_cases i <;>
    simp [-Nat.testBit_zero, testBit_mod_65536, testBit_word_UNPACK, ws2812_channel_gpio_map,
      WS2812_NUM_CHANNELS,
      WS2812_CH0_GPIO, WS2812_CH1_GPIO, WS2812_CH2_GPIO, WS2812_CH3_GPIO,
      WS2812_CH4_GPIO, WS2812_CH5_GPIO, WS2812_CH6_GPIO, WS2812_CH7_GPIO]

set_option maxRecDepth 100000 in
theorem byte_from_bits : ∀ v, v < 256 →
    (List.finRange 8).foldl (fun acc k => 2 * acc + (v.testBit (7 - k.val)).toNat) 0 = v := by
  decide

theorem fill_dma_buffer_slot (buf : Fin 16 → Nat) (dest : Nat) (pos : Int)
    (channels : Fin 8 → led_channel_info) (j : Fin 8) (h : dest + j.val < 16) :
    fill_dma_buffer buf dest pos channels ⟨dest + j.val, h⟩ = transposed channels pos j := by
  unfold fill_dma_buffer transposed store16
  fin_cases j <;> simp [CurRegs.word]

theorem fill_dma_buffer_other (buf : Fin 16 → Nat) (dest : Nat) (pos : Int)
    (channels : Fin 8 → led_channel_info) (k : Fin 16)
    (h : k.val < dest ∨ dest + 8 ≤ k.val) :
    fill_dma_buffer buf dest pos channels k = buf k := by
  unfold fill_dma_buffer store16
  have h0 : k.val ≠ dest + 0 := by omega
  have h1 : k.val ≠ dest + 1 := by omega
  have h2 : k.val ≠ dest + 2 := by omega
  have h3 : k.val ≠ dest + 3 := by omega
  have h4 : k.val ≠ dest + 4 := by omega
  have h5 : k.val ≠ dest + 5 := by omega
  have h6 : k.val ≠ dest + 6 := by omega
  have h7 : k.val ≠ dest + 7 := by omega
  simp only [h0, h1, h2, h3, h4, h5, h6, h7, if_false]

theorem toU32_natCast (n : Nat) (h : n < 4294967296) : toU32 (n : Int) = n := by
  unfold toU32
  omega

theorem get_channel_byte_active (c : led_channel_info) (pos : Nat) (n : Nat)
    (hpos : pos < 2147483648) (h : pos < c.length_in_bytes) :
    get_channel_byte c pos n = (c.framebuffer pos % 256) ^^^ 255 := by
  unfold get_channel_byte
  rw [toU32_natCast pos (by omega)]
  simp only [h, or_true, if_true]
  apply Nat.mod_eq_of_lt
  have h8 : (256 : Nat) = 2 ^ 8 := by norm_num
  rw [h8]
  exact Nat.xor_lt_two_pow (by rw [← h8]; exact Nat.mod_lt _ (by norm_num)) (by norm_num)

theorem get_channel_byte_padding (c : led_channel_info) (pos : Nat) (n : Nat)
    (hpos : pos < 2147483648) (h : c.length_in_bytes ≤ pos) :
    get_channel_byte c pos n = 255 := by
  unfold get_channel_byte
  rw [toU32_natCast pos (by omega)]
  simp [WS212_ALL_CHANNELS_SAME_LENGTH, Nat.not_lt.mpr h]

theorem testBit_xor_255 (b k : Nat) (hk : k < 8) :
    (b ^^^ 255).testBit k = !b.testBit k := by
  have h : (255 : Nat) = 2 ^ 8 - 1 := by norm_num
  rw [Nat.testBit_xor, h, Nat.testBit_two_pow_sub_one]
  simp [hk]

theorem testBit_255 (k : Nat) (hk : k < 8) : Nat.testBit 255 k = true := by
  have h : (255 : Nat) = 2 ^ 8 - 1 := by norm_num
  rw [h, Nat.testBit_two_pow_sub_one]
  simp [hk]

theorem refresh_terminator_eq (s : Engine) :
    refresh_terminator s =
      { s with channels_max_length := toI32 (s.channels_max_length + 3) } := by
  simp [refresh_terminator, WS212_ALL_CHANNELS_SAME_LENGTH]

theorem gpio_map_val (i : Fin 8) : ws2812_channel_gpio_map i = i.val := by
  fin_cases i <;> rfl

theorem gpio_map_injective : Function.Injective ws2812_channel_gpio_map := by
  intro a b h
  rw [gpio_map_val, gpio_map_val] at h
  exact Fin.ext h

theorem loop_offsets_fill : loop_offsets DMA_BUFFER_FILL_SIZE = [0] := by decide

theorem loop_offsets_full : loop_offsets DMA_BUFFER_SIZE = [0, 8] := by decide

theorem refresh_scan_mask (channels : Fin 8 → led_channel_info) (s : Engine) (i : Fin 8) :
    (refresh_scan channels s i).ws2812_gpio_set_bits =
      if (channels i).length_in_bytes ≠ 0 then
        (s.ws2812_gpio_set_bits ||| (1 <<< ws2812_channel_gpio_map i)) % 65536
      else s.ws2812_gpio_set_bits := by
  unfold refresh_scan
  split_ifs <;> rfl

theorem refresh_scan_max (channels : Fin 8 → led_channel_info) (s : Engine) (i : Fin 8) :
    (refresh_scan channels s i).channels_max_length =
      if (channels i).length_in_bytes > toU32 s.channels_max_length then
        toI32 (channels i).length_in_bytes
      else s.channels_max_length := by
  unfold refresh_scan
  split_ifs <;> rfl

theorem refresh_scan_frame (channels : Fin 8 → led_channel_info) (s : Engine) (i : Fin 8) :
    (refresh_scan channels s i).dma_buffer = s.dma_buffer ∧
    (refresh_scan channels s i).hal_dma_error_flag = s.hal_dma_error_flag ∧
    (refresh_scan channels s i).framebuffer_position = s.framebuffer_position ∧
    (refresh_scan channels s i).led_channels = s.led_channels ∧
    (refresh_scan channels s i).LISR = s.LISR ∧
    (refresh_scan channels s i).hw = s.hw ∧
    (refresh_scan channels s i).slot_writes = s.slot_writes := by
  unfold refresh_scan
  split_ifs <;> exact ⟨rfl, rfl, rfl, rfl, rfl, rfl, rfl⟩

theorem scan_frame (channels : Fin 8 → led_channel_info) (l : List (Fin 8)) (s : Engine) :
    (l.foldl (refresh_scan channels) s).dma_buffer = s.dma_buffer ∧
    (l.foldl (refresh_scan channels) s).hal_dma_error_flag = s.hal_dma_error_flag ∧
    (l.foldl (refresh_scan channels) s).framebuffer_position = s.framebuffer_position ∧
    (l.foldl (refresh_scan channels) s).led_channels = s.led_channels ∧
    (l.foldl (refresh_scan channels) s).LISR = s.LISR ∧
    (l.foldl (refresh_scan channels) s).hw = s.hw ∧
    (l.foldl (refresh_scan channels) s).slot_writes = s.slot_writes := by
  induction l generalizing s with
  | nil => exact ⟨rfl, rfl, rfl, rfl, rfl, rfl, rfl⟩
  | cons i l ih =>
    rw [List.foldl_cons]
    obtain ⟨h1, h2, h3, h4, h5, h6, h7⟩ := ih (refresh_scan channels s i)
    obtain ⟨g1, g2, g3, g4, g5, g6, g7⟩ := refresh_scan_frame channels s i
    exact ⟨h1.trans g1, h2.trans g2, h3.trans g3, h4.trans g4, h5.trans g5, h6.trans g6,
      h7.trans g7⟩

theorem scan_mask_testBit (channels : Fin 8 → led_channel_info) (l : List (Fin 8)) (s : Engine)
    (hm : s.ws2812_gpio_set_bits < 65536) (q : Nat) :
    (l.foldl (refresh_scan channels) s).ws2812_gpio_set_bits.testBit q = true ↔
      (s.ws2812_gpio_set_bits.testBit q = true ∨
        ∃ i ∈ l, (channels i).length_in_bytes ≠ 0 ∧ ws2812_channel_gpio_map i = q) := by
  induction l generalizing s with
  | nil => simp
  | cons i l ih =>
    rw [List.foldl_cons]
    have hstep := refresh_scan_mask channels s i
    have hlt : (refresh_scan channels s i).ws2812_gpio_set_bits < 65536 := by
      rw [hstep]
      split
      · exact Nat.mod_lt _ (by norm_num)
      · exact hm
    rw [ih _ hlt, hstep]
    by_cases h2 : (channels i).length_in_bytes ≠ 0
    · rw [if_pos h2]
      simp only [List.mem_cons, exists_eq_or_imp]
      rw [testBit_mod_65536, Nat.testBit_or, Nat.one_shiftLeft, Nat.testBit_two_pow]
      have hg : ws2812_channel_gpio_map i < 16 := by rw [gpio_map_val]; omega
      by_cases hq : ws2812_channel_gpio_map i = q
      · subst hq
        simp [hg, h2]
      · by_cases hq16 : q < 16
        · simp [hq, hq16]
        · have : s.ws2812_gpio_set_bits.testBit q = false :=
            Nat.testBit_lt_two_pow (lt_of_lt_of_le hm (by
              calc 65536 = 2 ^ 16 := by norm_num
                _ ≤ 2 ^ q := Nat.pow_le_pow_right (by norm_num) (by omega)))
          simp [hq, hq16, this]
    · rw [if_neg h2]
      have h2' : (channels i).length_in_bytes = 0 := by simpa using h2
      simp [h2']

theorem refresh_mask_testBit (channels : Fin 8 → led_channel_info) (s : Engine) (q : Nat) :
    (ws2812_refresh channels s).ws2812_gpio_set_bits.testBit q = true ↔
      ∃ i, (channels i).length_in_bytes ≠ 0 ∧ ws2812_channel_gpio_map i = q := by
  unfold ws2812_refresh
  simp only [emit, lifcr_write, refresh_terminator_eq]
  rw [scan_mask_testBit]
  · simp [loop_offsets_full, refill]
  · simp [loop_offsets_full, refill]

theorem scan_max (channels : Fin 8 → led_channel_info) (l : List (Fin 8)) (s : Engine)
    (hc : 0 ≤ s.channels_max_length ∧ s.channels_max_length < 2147483648)
    (hl : ∀ i ∈ l, (channels i).length_in_bytes < 2147483648) :
    s.channels_max_length ≤ (l.foldl (refresh_scan channels) s).channels_max_length ∧
    (∀ i ∈ l, ((channels i).length_in_bytes : Int) ≤
      (l.foldl (refresh_scan channels) s).channels_max_length) ∧
    ((l.foldl (refresh_scan channels) s).channels_max_length = s.channels_max_length ∨
      ∃ i ∈ l, (l.foldl (refresh_scan channels) s).channels_max_length =
        ((channels i).length_in_bytes : Int)) := by
  induction l generalizing s with
  | nil => simp
  | cons i l ih =>
    rw [List.foldl_cons]
    have hi : (channels i).length_in_bytes < 2147483648 := hl i (List.mem_cons_self _ _)
    have hstep := refresh_scan_max channels s i
    have hc' : 0 ≤ (refresh_scan channels s i).channels_max_length ∧
        (refresh_scan channels s i).channels_max_length < 2147483648 := by
      rw [hstep]
      unfold toU32 toI32
      split <;> omega
    have hge : s.channels_max_length ≤ (refresh_scan channels s i).channels_max_length ∧
        ((channels i).length_in_bytes : Int) ≤ (refresh_scan channels s i).channels_max_length ∧
        ((refresh_scan channels s i).channels_max_length = s.channels_max_length ∨
          (refresh_scan channels s i).channels_max_length = ((channels i).length_in_bytes : Int)) := by
      rw [hstep]
      unfold toU32 toI32
      split <;> omega
    obtain ⟨h1, h2, h3⟩ := ih (refresh_scan channels s i) hc'
      (fun k hk => hl k (List.mem_cons_of_mem _ hk))
    refine ⟨le_trans hge.1 h1, ?_, ?_⟩
    · intro k hk
      rcases List.mem_cons.mp hk with rfl | hk
      · exact le_trans hge.2.1 h1
      · exact h2 k hk
    · rcases h3 with h3 | ⟨k, hk, h3⟩
      · rcases hge.2.2 with h4 | h4
        · left; rw [h3, h4]
        · right; exact ⟨i, List.mem_cons_self _ _, by rw [h3, h4]⟩
      · right; exact ⟨k, List.mem_cons_of_mem _ hk, h3⟩

theorem refresh_max_eq_scan (channels : Fin 8 → led_channel_info) (s : Engine) :
    ∃ s1 : Engine, s1.channels_max_length = 0 ∧
      (ws2812_refresh channels s).channels_max_length =
        toI32 (toI32 (((List.finRange 8).foldl (refresh_scan channels) s1).channels_max_length
          + 2) + 3) := by
  unfold ws2812_refresh
  simp only [emit, lifcr_write, refresh_terminator_eq]
  refine ⟨_, ?_, rfl⟩
  simp [loop_offsets_full, refill]

theorem refresh_max_length (channels : Fin 8 → led_channel_info) (s : Engine)
    (hmax : ∀ i, (channels i).length_in_bytes ≤ 2147483642) :
    (ws2812_refresh channels s).channels_max_length =
      ((Finset.univ.sup (fun i => (channels i).length_in_bytes) : Nat) : Int) + 2 + 3 := by
  obtain ⟨s1, h0, heq⟩ := refresh_max_eq_scan channels s
  rw [heq]
  obtain ⟨h1, h2, h3⟩ := scan_max channels (List.finRange 8) s1 (by rw [h0]; omega)
    (fun i _ => lt_of_le_of_lt (hmax i) (by norm_num))
  generalize ((List.finRange 8).foldl (refresh_scan channels) s1).channels_max_length = r at *
  have hsup : ((Finset.univ.sup (fun i => (channels i).length_in_bytes) : Nat) : Int) = r := by
    apply le_antisymm
    · have : (Finset.univ.sup (fun i => (channels i).length_in_bytes) : Nat) ≤ r.toNat := by
        apply Finset.sup_le
        intro i _
        have := h2 i (List.mem_finRange i)
        omega
      omega
    · rcases h3 with h3 | ⟨i, _, h3⟩
      · omega
      · rw [h3]
        exact_mod_cast Finset.le_sup (f := fun i => (channels i).length_in_bytes)
          (Finset.mem_univ i)
  have hle : (Finset.univ.sup (fun i => (channels i).length_in_bytes) : Nat) ≤ 2147483642 :=
    Finset.sup_le (fun i _ => hmax i)
  rw [← hsup]
  unfold toI32
  omega

theorem lifcr_write_CHTIF2 (s : Engine) :
    lifcr_write [Mask.DMA_LIFCR_CHTIF2] s =
      { s with
        hw := s.hw ++ [HwOp.writeMask Reg.DMA2_LIFCR [Mask.DMA_LIFCR_CHTIF2]]
        LISR := { s.LISR with HTIF2 := false } } := by
  simp [lifcr_write]

theorem lifcr_write_CTCIF2 (s : Engine) :
    lifcr_write [Mask.DMA_LIFCR_CTCIF2] s =
      { s with
        hw := s.hw ++ [HwOp.writeMask Reg.DMA2_LIFCR [Mask.DMA_LIFCR_CTCIF2]]
        LISR := { s.LISR with TCIF2 := false } } := by
  simp [lifcr_write]

theorem lifcr_write_CTEIF2 (s : Engine) :
    lifcr_write [Mask.DMA_LIFCR_CTEIF2] s =
      { s with
        hw := s.hw ++ [HwOp.writeMask Reg.DMA2_LIFCR [Mask.DMA_LIFCR_CTEIF2]]
        LISR := { s.LISR with TEIF2 := false } } := by
  simp [lifcr_write]

theorem isr_half_transfer_idle (s : Engine) (h : s.LISR.HTIF2 = false) :
    isr_half_transfer s = s := by
  simp [isr_half_transfer, h]

theorem isr_half_transfer_tail (s : Engine) (h : s.LISR.HTIF2 = true)
    (ht : s.channels_max_length ≤ s.framebuffer_position) :
    isr_half_transfer s =
      { s with
        hw := s.hw ++ [HwOp.writeMask Reg.DMA2_LIFCR [Mask.DMA_LIFCR_CHTIF2],
          HwOp.write Reg.GPIOB_BSRR (bsrr_reset_word s.ws2812_gpio_set_bits)]
        LISR := { s.LISR with HTIF2 := false } } := by
  simp [isr_half_transfer, h, lifcr_write_CHTIF2, emit, ht]

theorem isr_half_transfer_refill (s : Engine) (h : s.LISR.HTIF2 = true)
    (ht : s.framebuffer_position < s.channels_max_length) :
    isr_half_transfer s =
      { s with
        hw := s.hw ++ [HwOp.writeMask Reg.DMA2_LIFCR [Mask.DMA_LIFCR_CHTIF2]]
        LISR := { s.LISR with HTIF2 := false }
        dma_buffer := fill_dma_buffer s.dma_buffer 0 s.framebuffer_position s.led_channels
        framebuffer_position := toI32 (s.framebuffer_position + 1)
        slot_writes := s.slot_writes + 8 } := by
  simp [isr_half_transfer, h, lifcr_write_CHTIF2, not_le.mpr ht, loop_offsets_fill, refill]

theorem isr_transfer_complete_tail (s : Engine) (h : s.LISR.TCIF2 = true)
    (ht : s.channels_max_length ≤ s.framebuffer_position) :
    isr_transfer_complete s =
      { s with
        hw := s.hw ++ HwOp.writeMask Reg.DMA2_LIFCR [Mask.DMA_LIFCR_CTCIF2] ::
          end_of_frame_ops s.ws2812_gpio_set_bits
        LISR := { s.LISR with TCIF2 := false } } := by
  simp [isr_transfer_complete, h, lifcr_write_CTCIF2, ht]

theorem isr_transfer_complete_refill (s : Engine) (h : s.LISR.TCIF2 = true)
    (ht : s.framebuffer_position < s.channels_max_length) :
    isr_transfer_complete s =
      { s with
        hw := s.hw ++ [HwOp.writeMask Reg.DMA2_LIFCR [Mask.DMA_LIFCR_CTCIF2]]
        LISR := { s.LISR with TCIF2 := false }
        dma_buffer := fill_dma_buffer s.dma_buffer 8 s.framebuffer_position s.led_channels
        framebuffer_position := toI32 (s.framebuffer_position + 1)
        slot_writes := s.slot_writes + 8 } := by
  have h8 : loop_offsets 8 = [0] := by decide
  simp [isr_transfer_complete, h, lifcr_write_CTCIF2, not_le.mpr ht, refill,
    DMA_BUFFER_FILL_SIZE, DMA_BUFFER_SIZE, h8]

theorem or_fold_testBit (f : Fin 8 → Nat) (l : List (Fin 8)) (m q : Nat) :
    (l.foldl (fun acc i => acc ||| f i) m).testBit q = true ↔
      (m.testBit q = true ∨ ∃ i ∈ l, (f i).testBit q = true) := by
  induction l generalizing m with
  | nil => simp
  | cons i l ih =>
    rw [List.foldl_cons, ih, Nat.testBit_or]
    simp only [Bool.or_eq_true, List.mem_cons, exists_eq_or_imp]
    tauto

theorem handler_ops_eq (s : Engine) :
    handler_ops s =
      (if s.LISR.HTIF2 = true then
        HwOp.writeMask Reg.DMA2_LIFCR [Mask.DMA_LIFCR_CHTIF2] ::
          (if s.channels_max_length ≤ s.framebuffer_position then
            [HwOp.write Reg.GPIOB_BSRR (bsrr_reset_word s.ws2812_gpio_set_bits)] else [])
       else []) ++
      (if s.LISR.TCIF2 = true then
        HwOp.writeMask Reg.DMA2_LIFCR [Mask.DMA_LIFCR_CTCIF2] ::
          (if s.channels_max_length ≤ (isr_half_transfer s).framebuffer_position then
            end_of_frame_ops s.ws2812_gpio_set_bits else [])
       else []) ++
      (if s.LISR.TEIF2 = true then [HwOp.writeMask Reg.DMA2_LIFCR [Mask.DMA_LIFCR_CTEIF2]]
       else []) := by
  obtain ⟨mask, buf, hal, fp, cml, chans, ⟨ht, tc, te⟩, hw, sw⟩ := s
  have h8 : loop_offsets 8 = [0] := by decide
  by_cases h1 : cml ≤ fp <;> by_cases h2 : cml ≤ toI32 (fp + 1) <;>
    cases ht <;> cases tc <;> cases te <;>
    simp [handler_ops, DMA2_Stream2_Handler, isr_half_transfer, isr_transfer_complete,
      isr_transfer_error, lifcr_write, emit, refill, loop_offsets_fill, h8,
      DMA_BUFFER_FILL_SIZE, DMA_BUFFER_SIZE, h1, h2]

theorem handler_hw (s : Engine) :
    (DMA2_Stream2_Handler s).hw = s.hw ++ handler_ops s := by
  obtain ⟨mask, buf, hal, fp, cml, chans, ⟨ht, tc, te⟩, hw, sw⟩ := s
  have h8 : loop_offsets 8 = [0] := by decide
  by_cases h1 : cml ≤ fp <;> by_cases h2 : cml ≤ toI32 (fp + 1) <;>
    cases ht <;> cases tc <;> cases te <;>
    simp [handler_ops, DMA2_Stream2_Handler, isr_half_transfer, isr_transfer_complete,
      isr_transfer_error, lifcr_write, emit, refill, loop_offsets_fill, h8,
      DMA_BUFFER_FILL_SIZE, DMA_BUFFER_SIZE, h1, h2]

theorem bsrr_reset_word_eq (mask : Nat) (h : mask < 65536) :
    bsrr_reset_word mask = mask <<< 16 := by
  unfold bsrr_reset_word
  rw [Nat.shiftLeft_eq]
  apply Nat.mod_eq_of_lt
  omega

theorem end_of_frame_ops_arr (mask : Nat) :
    HwOp.write Reg.TIM1_ARR (RESET_TIMER_PERIOD - 1) ∈ end_of_frame_ops mask := by
  simp [end_of_frame_ops]

theorem handler_ops_no_timer (s : Engine)
    (h : ¬ (s.LISR.TCIF2 = true ∧
      s.channels_max_length ≤ (isr_half_transfer s).framebuffer_position)) :
    ∀ op ∈ handler_ops s, op.reg.isTIM1 = false := by
  intro op hop
  rw [handler_ops_eq] at hop
  by_cases htc : s.LISR.TCIF2 = true
  · have hlt : ¬ s.channels_max_length ≤ (isr_half_transfer s).framebuffer_position :=
      fun hle => h ⟨htc, hle⟩
    simp only [htc, if_true, hlt, if_false, List.mem_append, List.mem_cons] at hop
    rcases hop with (hop | hop) | hop
    · split at hop
      · rw [List.mem_cons] at hop
        rcases hop with rfl | hop
        · rfl
        · split at hop
          · rw [List.mem_singleton] at hop; subst hop; rfl
          · simp at hop
      · simp at hop
    · rcases hop with rfl | hop
      · rfl
      · simp at hop
    · split at hop
      · rw [List.mem_singleton] at hop; subst hop; rfl
      · simp at hop
  · simp only [htc, if_false, List.mem_append] at hop
    rcases hop with (hop | hop) | hop
    · split at hop
      · rw [List.mem_cons] at hop
        rcases hop with rfl | hop
        · rfl
        · split at hop
          · rw [List.mem_singleton] at hop; subst hop; rfl
          · simp at hop
      · simp at hop
    · simp at hop
    · split at hop
      · rw [List.mem_singleton] at hop; subst hop; rfl
      · simp at hop

theorem toI32_isInt32 (x : Int) : IsInt32 (toI32 x) := by
  unfold IsInt32 toI32
  omega

theorem refresh_state (channels : Fin 8 → led_channel_info) (s : Engine) :
    (ws2812_refresh channels s).framebuffer_position = 2 ∧
    (ws2812_refresh channels s).led_channels = channels ∧
    (ws2812_refresh channels s).LISR = ⟨false, false, false⟩ ∧
    IsInt32 (ws2812_refresh channels s).channels_max_length ∧
    (ws2812_refresh channels s).slot_writes = s.slot_writes + 16 ∧
    (∀ j : Fin 8, (ws2812_refresh channels s).dma_buffer ⟨j.val, by omega⟩ =
      transposed channels 0 j) ∧
    (∀ j : Fin 8, (ws2812_refresh channels s).dma_buffer ⟨8 + j.val, by omega⟩ =
      transposed channels 1 j) := by
  have h01 : toI32 (0 + 1) = 1 := by decide
  have h12 : toI32 (1 + 1) = 2 := by decide
  refine ⟨?_, ?_, ?_, ?_, ?_, ?_, ?_⟩
  · unfold ws2812_refresh
    simp only [emit, lifcr_write, refresh_terminator_eq]
    rw [(scan_frame _ _ _).2.2.1]
    have h1 : toI32 1 = 1 := by decide
    have h2 : toI32 2 = 2 := by decide
    simp [loop_offsets_full, refill, h1, h2]
  · unfold ws2812_refresh
    simp only [emit, lifcr_write, refresh_terminator_eq]
    rw [(scan_frame _ _ _).2.2.2.1]
    simp [loop_offsets_full, refill]
  · unfold ws2812_refresh
    simp [emit, lifcr_write, refresh_terminator_eq]
  · unfold ws2812_refresh
    simp only [emit, lifcr_write, refresh_terminator_eq]
    exact toI32_isInt32 _
  · unfold ws2812_refresh
    simp only [emit, lifcr_write, refresh_terminator_eq]
    rw [(scan_frame _ _ _).2.2.2.2.2.2]
    simp [loop_offsets_full, refill]
  · intro j
    unfold ws2812_refresh
    simp only [emit, lifcr_write, refresh_terminator_eq]
    rw [(scan_frame _ _ _).1]
    simp only [loop_offsets_full, List.foldl, refill, h01]
    rw [fill_dma_buffer_other _ 8 _ _ _ (Or.inl (by simp only []; omega))]
    have := fill_dma_buffer_slot s.dma_buffer 0 0 channels j (by omega)
    simp only [Nat.zero_add] at this
    exact this
  · intro j
    unfold ws2812_refresh
    simp only [emit, lifcr_write, refresh_terminator_eq]
    rw [(scan_frame _ _ _).1]
    simp only [loop_offsets_full, List.foldl, refill, h01]
    exact fill_dma_buffer_slot _ 8 1 channels j (by omega)

theorem handler_half_transfer_refill (s : Engine) (hflags : s.LISR = ⟨false, false, false⟩)
    (hlt : s.framebuffer_position < s.channels_max_length)
    (hfp : IsInt32 s.framebuffer_position) (hcml : IsInt32 s.channels_max_length) :
    DMA2_Stream2_Handler (raise DmaEvent.half_transfer s) =
      { s with
        hw := s.hw ++ [HwOp.writeMask Reg.DMA2_LIFCR [Mask.DMA_LIFCR_CHTIF2]]
        dma_buffer := fill_dma_buffer s.dma_buffer 0 s.framebuffer_position s.led_channels
        framebuffer_position := s.framebuffer_position + 1
        slot_writes := s.slot_writes + 8 } := by
  obtain ⟨mask, buf, hal, fp, cml, chans, flags, hw, sw⟩ := s
  simp only at hflags hlt hfp hcml
  subst hflags
  have hinc : toI32 (fp + 1) = fp + 1 := by
    unfold IsInt32 at hfp hcml
    unfold toI32
    omega
  simp [raise, DMA2_Stream2_Handler, isr_half_transfer, isr_transfer_complete,
    isr_transfer_error, lifcr_write, refill, loop_offsets_fill, not_le.mpr hlt, hinc]

theorem handler_transfer_complete_refill (s : Engine)
    (hflags : s.LISR = ⟨false, false, false⟩)
    (hlt : s.framebuffer_position < s.channels_max_length)
    (hfp : IsInt32 s.framebuffer_position) (hcml : IsInt32 s.channels_max_length) :
    DMA2_Stream2_Handler (raise DmaEvent.transfer_complete s) =
      { s with
        hw := s.hw ++ [HwOp.writeMask Reg.DMA2_LIFCR [Mask.DMA_LIFCR_CTCIF2]]
        dma_buffer := fill_dma_buffer s.dma_buffer 8 s.framebuffer_position s.led_channels
        framebuffer_position := s.framebuffer_position + 1
        slot_writes := s.slot_writes + 8 } := by
  obtain ⟨mask, buf, hal, fp, cml, chans, flags, hw, sw⟩ := s
  simp only at hflags hlt hfp hcml
  subst hflags
  have hinc : toI32 (fp + 1) = fp + 1 := by
    unfold IsInt32 at hfp hcml
    unfold toI32
    omega
  have h8 : loop_offsets 8 = [0] := by decide
  simp [raise, DMA2_Stream2_Handler, isr_half_transfer, isr_transfer_complete,
    isr_transfer_error, lifcr_write, refill, h8, DMA_BUFFER_FILL_SIZE, DMA_BUFFER_SIZE,
    not_le.mpr hlt, hinc]

theorem handler_half_transfer_tail (s : Engine) (hflags : s.LISR = ⟨false, false, false⟩)
    (hge : s.channels_max_length ≤ s.framebuffer_position) :
    DMA2_Stream2_Handler (raise DmaEvent.half_transfer s) =
      { s with
        hw := s.hw ++ [HwOp.writeMask Reg.DMA2_LIFCR [Mask.DMA_LIFCR_CHTIF2],
          HwOp.write Reg.GPIOB_BSRR (bsrr_reset_word s.ws2812_gpio_set_bits)] } := by
  obtain ⟨mask, buf, hal, fp, cml, chans, flags, hw, sw⟩ := s
  simp only at hflags hge
  subst hflags
  simp [raise, DMA2_Stream2_Handler, isr_half_transfer, isr_transfer_complete,
    isr_transfer_error, lifcr_write, emit, hge]

theorem handler_transfer_complete_tail (s : Engine)
    (hflags : s.LISR = ⟨false, false, false⟩)
    (hge : s.channels_max_length ≤ s.framebuffer_position) :
    DMA2_Stream2_Handler (raise DmaEvent.transfer_complete s) =
      { s with
        hw := s.hw ++ HwOp.writeMask Reg.DMA2_LIFCR [Mask.DMA_LIFCR_CTCIF2] ::
          end_of_frame_ops s.ws2812_gpio_set_bits } := by
  obtain ⟨mask, buf, hal, fp, cml, chans, flags, hw, sw⟩ := s
  simp only at hflags hge
  subst hflags
  simp [raise, DMA2_Stream2_Handler, isr_half_transfer, isr_transfer_complete,
    isr_transfer_error, lifcr_write, emit, hge]

theorem enters_end_of_frame_iff (s : Engine) :
    enters_end_of_frame s = true ↔
      (s.LISR.TCIF2 = true ∧
        s.channels_max_length ≤ (isr_half_transfer s).framebuffer_position) := by
  unfold enters_end_of_frame
  rw [decide_eq_true_iff]
  constructor
  · intro hmem
    by_contra hcond
    have := handler_ops_no_timer s hcond _ hmem
    simp [HwOp.reg, Reg.isTIM1] at this
  · rintro ⟨htc, hle⟩
    rw [handler_ops_eq]
    simp only [htc, if_true, hle]
    simp [end_of_frame_ops]

theorem isr_run_invariant (channels : Fin 8 → led_channel_info) (r : Engine)
    (hfp : r.framebuffer_position = 2) (hch : r.led_channels = channels)
    (hflags : r.LISR = ⟨false, false, false⟩) (hcml : IsInt32 r.channels_max_length)
    (h0 : ∀ (j : Fin 8) (k : Fin 16), k.val = j.val → r.dma_buffer k = transposed channels 0 j)
    (h1 : ∀ (j : Fin 8) (k : Fin 16), k.val = 8 + j.val →
      r.dma_buffer k = transposed channels 1 j)
    (n : Nat) (hn : (n : Int) + 2 ≤ r.channels_max_length) :
    (isr_run n r).framebuffer_position = (n : Int) + 2 ∧
    (isr_run n r).channels_max_length = r.channels_max_length ∧
    (isr_run n r).led_channels = channels ∧
    (isr_run n r).LISR = ⟨false, false, false⟩ ∧
    (isr_run n r).ws2812_gpio_set_bits = r.ws2812_gpio_set_bits ∧
    (isr_run n r).slot_writes = r.slot_writes + 8 * n ∧
    (∀ (j : Fin 8) (k : Fin 16), k.val = 8 * (n % 2) + j.val →
      (isr_run n r).dma_buffer k = transposed channels (n : Int) j) ∧
    (∀ (j : Fin 8) (k : Fin 16), k.val = 8 * ((n + 1) % 2) + j.val →
      (isr_run n r).dma_buffer k = transposed channels ((n : Int) + 1) j) := by
  induction n with
  | zero =>
    refine ⟨by simpa [isr_run] using hfp, rfl, hch, hflags, rfl, by simp [isr_run], ?_, ?_⟩
    · intro j k hk
      simpa [isr_run] using h0 j k (by simpa using hk)
    · intro j k hk
      simpa [isr_run] using h1 j k (by simpa using hk)
  | succ n ih =>
    obtain ⟨ifp, icml, ich, ifl, imask, isw, ib0, ib1⟩ := ih (by push_cast at hn; omega)
    have hlt : (isr_run n r).framebuffer_position < (isr_run n r).channels_max_length := by
      rw [ifp, icml]; push_cast at hn; omega
    have hfpi : IsInt32 (isr_run n r).framebuffer_position := by
      unfold IsInt32 at hcml ⊢
      rw [ifp]; push_cast at hn; omega
    have hcmli : IsInt32 (isr_run n r).channels_max_length := by rw [icml]; exact hcml
    rcases Nat.mod_two_eq_zero_or_one n with hpar | hpar
    · have hev : nth_event n = DmaEvent.half_transfer := by simp [nth_event, hpar]
      have hpar1 : (n + 1) % 2 = 1 := by omega
      have hpar2 : (n + 1 + 1) % 2 = 0 := by omega
      have hstep : isr_run (n + 1) r = _ :=
        (congrArg DMA2_Stream2_Handler (by rw [hev])).trans
          (handler_half_transfer_refill (isr_run n r) ifl hlt hfpi hcmli)
      rw [hstep]
      refine ⟨by simp only [ifp]; push_cast; ring, icml, ich, ifl, imask,
        by simp only [isw]; ring, ?_, ?_⟩
      · intro j k hk
        rw [hpar1] at hk
        simp only []
        rw [fill_dma_buffer_other _ 0 _ _ k (Or.inr (by omega))]
        have := ib1 j k (by rw [hpar1]; exact hk)
        rw [this]
        push_cast
        rfl
      · intro j k hk
        rw [hpar2] at hk
        simp only []
        have hk' : k = ⟨0 + j.val, by omega⟩ := Fin.ext (by simp only []; omega)
        rw [hk', fill_dma_buffer_slot, ifp, ich]
        push_cast
        congr 1
    · have hev : nth_event n = DmaEvent.transfer_complete := by simp [nth_event, hpar]
      have hpar1 : (n + 1) % 2 = 0 := by omega
      have hpar2 : (n + 1 + 1) % 2 = 1 := by omega
      have hstep : isr_run (n + 1) r = _ :=
        (congrArg DMA2_Stream2_Handler (by rw [hev])).trans
          (handler_transfer_complete_refill (isr_run n r) ifl hlt hfpi hcmli)
      rw [hstep]
      refine ⟨by simp only [ifp]; push_cast; ring, icml, ich, ifl, imask,
        by simp only [isw]; ring, ?_, ?_⟩
      · intro j k hk
        rw [hpar1] at hk
        simp only []
        rw [fill_dma_buffer_other _ 8 _ _ k (Or.inl (by omega))]
        have := ib1 j k (by rw [hpar1]; exact hk)
        rw [this]
        push_cast
        rfl
      · intro j k hk
        rw [hpar2] at hk
        simp only []
        have hk' : k = ⟨8 + j.val, by omega⟩ := Fin.ext (by simp only []; omega)
        rw [hk', fill_dma_buffer_slot, ifp, ich]
        push_cast
        congr 1

theorem run_frame_spec (r : Engine) (channels : Fin 8 → led_channel_info)
    (hfp : r.framebuffer_position = 2) (hch : r.led_channels = channels)
    (hflags : r.LISR = ⟨false, false, false⟩) (hcml : IsInt32 r.channels_max_length)
    (h0 : ∀ (j : Fin 8) (k : Fin 16), k.val = j.val → r.dma_buffer k = transposed channels 0 j)
    (h1 : ∀ (j : Fin 8) (k : Fin 16), k.val = 8 + j.val →
      r.dma_buffer k = transposed channels 1 j)
    (k : Nat) : ∀ (n fuel : Nat), r.channels_max_length = (n : Int) + 2 + k → k + 2 ≤ fuel →
      ∃ s, run_frame fuel n (isr_run n r) = some s ∧
        s.slot_writes = r.slot_writes + 8 * (n + k) := by
  induction k with
  | zero =>
    intro n fuel hk hfuel
    obtain ⟨ifp, icml, _, ifl, _, isw, _, _⟩ :=
      isr_run_invariant channels r hfp hch hflags hcml h0 h1 n (by rw [hk]; push_cast; omega)
    have hge : (isr_run n r).channels_max_length ≤ (isr_run n r).framebuffer_position := by
      rw [ifp, icml, hk]; push_cast; omega
    obtain ⟨f, rfl⟩ : ∃ f, fuel = f + 1 := ⟨fuel - 1, by omega⟩
    rcases Nat.mod_two_eq_zero_or_one n with hpar | hpar
    · have hev : nth_event n = DmaEvent.half_transfer := by simp [nth_event, hpar]
      have hev1 : nth_event (n + 1) = DmaEvent.transfer_complete := by
        have : (n + 1) % 2 = 1 := by omega
        simp [nth_event, this]
      obtain ⟨g, rfl⟩ : ∃ g, f = g + 1 := ⟨f - 1, by omega⟩
      have hno : enters_end_of_frame (raise DmaEvent.half_transfer (isr_run n r)) = false := by
        rw [Bool.eq_false_iff, Ne, enters_end_of_frame_iff]
        simp [raise, ifl]
      have hstep := handler_half_transfer_tail (isr_run n r) ifl hge
      have hyes : enters_end_of_frame (raise DmaEvent.transfer_complete
          (DMA2_Stream2_Handler (raise DmaEvent.half_transfer (isr_run n r)))) = true := by
        rw [enters_end_of_frame_iff, hstep]
        constructor
        · simp [raise]
        · rw [isr_half_transfer_idle _ (by simp [raise, ifl])]
          simpa [raise] using hge
      refine ⟨DMA2_Stream2_Handler (raise DmaEvent.transfer_complete
        (DMA2_Stream2_Handler (raise DmaEvent.half_transfer (isr_run n r)))), ?_, ?_⟩
      · simp only [run_frame, hev, hev1, hno, hyes, if_true]
        simp
      · rw [hstep, handler_transfer_complete_tail _ (by simpa using ifl) (by simpa using hge)]
        simpa using isw
    · have hev : nth_event n = DmaEvent.transfer_complete := by simp [nth_event, hpar]
      have hyes : enters_end_of_frame (raise DmaEvent.transfer_complete (isr_run n r)) = true := by
        rw [enters_end_of_frame_iff]
        constructor
        · simp [raise]
        · rw [isr_half_transfer_idle _ (by simp [raise, ifl])]
          simpa [raise] using hge
      refine ⟨DMA2_Stream2_Handler (raise DmaEvent.transfer_complete (isr_run n r)), ?_, ?_⟩
      · simp only [run_frame, hev, hyes, if_true]
      · rw [handler_transfer_complete_tail _ ifl hge]
        simpa using isw
  | succ k ih =>
    intro n fuel hk hfuel
    obtain ⟨ifp, icml, _, ifl, _, _, _, _⟩ :=
      isr_run_invariant channels r hfp hch hflags hcml h0 h1 n (by rw [hk]; push_cast; omega)
    have hlt : (isr_run n r).framebuffer_position < (isr_run n r).channels_max_length := by
      rw [ifp, icml, hk]; push_cast; omega
    obtain ⟨f, rfl⟩ : ∃ f, fuel = f + 1 := ⟨fuel - 1, by omega⟩
    have hno : enters_end_of_frame (raise (nth_event n) (isr_run n r)) = false := by
      rw [Bool.eq_false_iff, Ne, enters_end_of_frame_iff]
      rintro ⟨htc, hle⟩
      rcases Nat.mod_two_eq_zero_or_one n with hpar | hpar
      · have hev : nth_event n = DmaEvent.half_transfer := by simp [nth_event, hpar]
        rw [hev] at htc
        simp [raise, ifl] at htc
      · have hev : nth_event n = DmaEvent.transfer_complete := by simp [nth_event, hpar]
        rw [hev, isr_half_transfer_idle _ (by simp [raise, ifl])] at hle
        have : (isr_run n r).channels_max_length ≤ (isr_run n r).framebuffer_position := by
          simpa [raise] using hle
        omega
    obtain ⟨s, hs, hsw⟩ := ih (n + 1) f (by rw [hk]; push_cast; ring) (by omega)
    refine ⟨s, ?_, ?_⟩
    · rw [run_frame]
      simp only [hno]
      exact hs
    · rw [hsw]
      ring

/-! ## Claim C1 -/

/-- C1. Transpose inverse: for a byte index `pos` (a non-negative `int`) and a
channel `i` with `pos < length_in_bytes(i)`, bit `gpio_position(i)` of the
word `fill_dma_buffer` stores in `dest[j]` is the complement of bit `7-j` of
`framebuffer(i)[pos]`, for every slot `j`; reading that bit across
`dest[0..7]`, most significant first, gives `framebuffer(i)[pos] XOR 0xff`. -/
theorem C1_transpose_inverse (buf : Fin 16 → Nat) (dest : Nat) (hdest : dest + 8 ≤ 16)
    (channels : Fin 8 → led_channel_info) (pos : Nat) (hpos : pos < 2147483648)
    (i : Fin 8) (hlen : pos < (channels i).length_in_bytes) :
    (∀ j : Fin 8,
      (fill_dma_buffer buf dest pos channels ⟨dest + j.val, by omega⟩).testBit
          (ws2812_channel_gpio_map i) =
        !((channels i).framebuffer pos % 256).testBit (7 - j.val)) ∧
    (List.finRange 8).foldl (fun acc j =>
        2 * acc + ((fill_dma_buffer buf dest pos channels ⟨dest + j.val, by omega⟩).testBit
          (ws2812_channel_gpio_map i)).toNat) 0 =
      ((channels i).framebuffer pos % 256) ^^^ 255 := by
  have hbit : ∀ j : Fin 8,
      (fill_dma_buffer buf dest pos channels ⟨dest + j.val, by omega⟩).testBit
          (ws2812_channel_gpio_map i) =
        (((channels i).framebuffer pos % 256) ^^^ 255).testBit (7 - j.val) := by
    intro j
    rw [fill_dma_buffer_slot, testBit_transposed, get_channel_byte_active _ _ _ hpos hlen]
  constructor
  · intro j
    rw [hbit j, testBit_xor_255 _ _ (by omega)]
  · simp only [hbit]
    apply byte_from_bits
    have h8 : (256 : Nat) = 2 ^ 8 := by norm_num
    rw [h8]
    exact Nat.xor_lt_two_pow (by rw [← h8]; exact Nat.mod_lt _ (by norm_num)) (by norm_num)

/-- C1 at scenario 1: channel 0 (GPIO bit 0) holds `0xA5`; the bits read back
from the eight words are `0xA5 XOR 0xff`. -/
theorem C1_transpose_inverse_witness :
    (0 + 8 ≤ 16 ∧ 0 < 2147483648 ∧ 0 < (example_A5 0).length_in_bytes) ∧
    (List.finRange 8).foldl (fun acc j =>
        2 * acc + ((fill_dma_buffer (fun _ => 0) 0 ((0 : Nat) : Int) example_A5
          ⟨0 + j.val, by omega⟩).testBit (ws2812_channel_gpio_map 0)).toNat) 0 =
      (165 % 256) ^^^ 255 :=
  ⟨by decide,
    (C1_transpose_inverse (fun _ => 0) 0 (by decide) example_A5 0 (by decide) 0 (by decide)).2⟩

/-! ## Claim C2 -/

/-- C2 (as stated, refuted). With channel 0 the only active channel (one byte
`0xA5`, GPIO bit 0), the value `get_channel_byte` yields for the empty channel 1
at `pos = 0` is `0xff`, not `0x00`; bit 1 of the first clear word is 1, and the
eight clear words are `0xFE, 0xFF, 0xFE, 0xFF, 0xFF, 0xFE, 0xFF, 0xFE`, not
`0, 1, 0, 1, 1, 0, 1, 0`. -/
theorem C2_padding_counterexample :
    get_channel_byte (example_A5 1) 0 1 = 255 ∧
    (fill_dma_buffer (fun _ => 0) 0 0 example_A5 0).testBit (ws2812_channel_gpio_map 1) = true ∧
    (List.finRange 8).map (fun j : Fin 8 =>
        fill_dma_buffer (fun _ => 0) 0 0 example_A5 ⟨j.val, by omega⟩) =
      [254, 255, 254, 255, 255, 254, 255, 254] := by
  decide

/-- C2 (amended). For a byte index `pos` (a non-negative `int`) and a channel
`i` with `pos >= length_in_bytes(i)`, `get_channel_byte` returns the clear
pattern `0xff` itself (it is not inverted), so bit `gpio_position(i)` is 1 in
all eight words `fill_dma_buffer` produces for `pos`. -/
theorem C2_padding_sets_clear_bit (buf : Fin 16 → Nat) (dest : Nat) (hdest : dest + 8 ≤ 16)
    (channels : Fin 8 → led_channel_info) (pos : Nat) (hpos : pos < 2147483648)
    (i : Fin 8) (hlen : (channels i).length_in_bytes ≤ pos) :
    get_channel_byte (channels i) pos i.val = 255 ∧
    ∀ j : Fin 8,
      (fill_dma_buffer buf dest pos channels ⟨dest + j.val, by omega⟩).testBit
        (ws2812_channel_gpio_map i) = true := by
  have hb := get_channel_byte_padding (channels i) pos i.val hpos hlen
  refine ⟨hb, fun j => ?_⟩
  rw [fill_dma_buffer_slot, testBit_transposed, hb]
  exact testBit_255 _ (by omega)

/-- C2 (amended) at scenario 1: the empty channel 1 at `pos = 0`. -/
theorem C2_padding_sets_clear_bit_witness :
    (0 + 8 ≤ 16 ∧ 0 < 2147483648 ∧ (example_A5 1).length_in_bytes ≤ 0) ∧
    (get_channel_byte (example_A5 1) ((0 : Nat) : Int) (1 : Fin 8).val = 255 ∧
      ∀ j : Fin 8,
        (fill_dma_buffer (fun _ => 0) 0 ((0 : Nat) : Int) example_A5
          ⟨0 + j.val, by omega⟩).testBit (ws2812_channel_gpio_map 1) = true) :=
  ⟨by decide,
    C2_padding_sets_clear_bit (fun _ => 0) 0 (by decide) example_A5 0 (by decide) 1
      (by decide)⟩

/-! ## Claim C3 -/

/-- C3. Inactive-channel neutrality: for every channel `i`, in every slot of
the emitted stream whose index is at or beyond `8 * length_in_bytes(i)` (the
slot `8 * pos + j` is the word `fill_dma_buffer` stores in `dest[j]` for byte
`pos`), bit `gpio_position(i)` of the clear word is 1; and when
`length_in_bytes(i) = 0`, bit `gpio_position(i)` of the active-pin mask that
`ws2812_refresh` computes is 0. -/
theorem C3_inactive_channel_neutrality (channels : Fin 8 → led_channel_info) (i : Fin 8) :
    (∀ (buf : Fin 16 → Nat) (dest : Nat) (hdest : dest + 8 ≤ 16) (slot : Nat),
      slot / 8 < 2147483648 → 8 * (channels i).length_in_bytes ≤ slot →
      (fill_dma_buffer buf dest ((slot / 8 : Nat) : Int) channels
        ⟨dest + slot % 8, by omega⟩).testBit (ws2812_channel_gpio_map i) = true) ∧
    ((channels i).length_in_bytes = 0 → ∀ s : Engine,
      (ws2812_refresh channels s).ws2812_gpio_set_bits.testBit
        (ws2812_channel_gpio_map i) = false) := by
  constructor
  · intro buf dest hdest slot hpos hslot
    have hlen : (channels i).length_in_bytes ≤ slot / 8 := by omega
    have h := fill_dma_buffer_slot buf dest ((slot / 8 : Nat) : Int) channels
      ⟨slot % 8, by omega⟩ (by simp only []; omega)
    simp only [] at h
    rw [h, testBit_transposed, get_channel_byte_padding _ _ _ hpos hlen]
    exact testBit_255 _ (by simp only []; omega)
  · intro h0 s
    rw [Bool.eq_false_iff]
    intro hbit
    obtain ⟨k, hk, hg⟩ := (refresh_mask_testBit channels s _).mp hbit
    have := gpio_map_injective hg
    subst this
    exact hk h0

/-- C3 at scenario 1: slot 11 lies beyond the 8 slots of channel 0, and the
empty channel 3 is absent from the mask. -/
theorem C3_inactive_channel_neutrality_witness :
    (fill_dma_buffer (fun _ => 0) 8 ((11 / 8 : Nat) : Int) example_A5
        ⟨8 + 11 % 8, by omega⟩).testBit (ws2812_channel_gpio_map 0) = true ∧
    (ws2812_refresh example_A5 example_idle).ws2812_gpio_set_bits.testBit
      (ws2812_channel_gpio_map 3) = false :=
  ⟨(C3_inactive_channel_neutrality example_A5 0).1 (fun _ => 0) 8 (by decide) 11 (by decide)
      (by decide),
    (C3_inactive_channel_neutrality example_A5 3).2 (by decide) example_idle⟩

/-! ## Claim C4 -/

/-- C4. Active-mask correctness: after `ws2812_refresh`, whatever the mask was
before, `ws2812_gpio_set_bits` is the bitwise OR of `1 << gpio_position(i)`
over exactly the channels with `length_in_bytes(i) > 0`: its bit `q` is set iff
some channel of non-zero length has GPIO position `q`; bit `gpio_position(i)`
is 1 iff `length_in_bytes(i) > 0`; and its population count is the number of
channels of non-zero length. -/
theorem C4_active_mask (channels : Fin 8 → led_channel_info) (s : Engine) :
    (ws2812_refresh channels s).ws2812_gpio_set_bits =
      (List.finRange 8).foldl (fun acc i =>
        acc ||| (if 0 < (channels i).length_in_bytes then 1 <<< ws2812_channel_gpio_map i else 0))
        0 ∧
    (∀ q : Nat, (ws2812_refresh channels s).ws2812_gpio_set_bits.testBit q = true ↔
      ∃ i, 0 < (channels i).length_in_bytes ∧ ws2812_channel_gpio_map i = q) ∧
    (∀ i : Fin 8, (ws2812_refresh channels s).ws2812_gpio_set_bits.testBit
        (ws2812_channel_gpio_map i) = true ↔ 0 < (channels i).length_in_bytes) ∧
    popcount16 (ws2812_refresh channels s).ws2812_gpio_set_bits =
      (Finset.univ.filter (fun i : Fin 8 => 0 < (channels i).length_in_bytes)).card := by
  have hbits : ∀ q : Nat, (ws2812_refresh channels s).ws2812_gpio_set_bits.testBit q = true ↔
      ∃ i, 0 < (channels i).length_in_bytes ∧ ws2812_channel_gpio_map i = q := by
    intro q
    rw [refresh_mask_testBit]
    simp only [Nat.pos_iff_ne_zero]
  refine ⟨?_, hbits, ?_, ?_⟩
  · apply Nat.eq_of_testBit_eq
    intro q
    rw [Bool.eq_iff_iff, hbits, or_fold_testBit]
    constructor
    · rintro ⟨i, hi, hq⟩
      right
      refine ⟨i, List.mem_finRange i, ?_⟩
      rw [if_pos hi, Nat.one_shiftLeft, Nat.testBit_two_pow, hq]
      simp
    · rintro (h | ⟨i, _, hi⟩)
      · simp at h
      · by_cases hlen : 0 < (channels i).length_in_bytes
        · rw [if_pos hlen, Nat.one_shiftLeft, Nat.testBit_two_pow] at hi
          exact ⟨i, hlen, by simpa using hi⟩
        · rw [if_neg hlen] at hi
          simp at hi
  · intro i
    rw [hbits]
    constructor
    · rintro ⟨k, hk, hg⟩
      rw [gpio_map_injective hg] at hk
      exact hk
    · intro hi
      exact ⟨i, hi, rfl⟩
  · unfold popcount16
    have hset : (Finset.range 16).filter
        (fun k => (ws2812_refresh channels s).ws2812_gpio_set_bits.testBit k = true) =
        (Finset.univ.filter (fun i : Fin 8 => 0 < (channels i).length_in_bytes)).image
          ws2812_channel_gpio_map := by
      ext k
      simp only [Finset.mem_filter, Finset.mem_range, Finset.mem_image, Finset.mem_univ,
        true_and, hbits]
      constructor
      · rintro ⟨_, i, hi, hg⟩
        exact ⟨i, hi, hg⟩
      · rintro ⟨i, hi, hg⟩
        refine ⟨?_, i, hi, hg⟩
        rw [← hg, gpio_map_val]
        omega
    rw [hset, Finset.card_image_of_injective _ gpio_map_injective]

/-- C4 at scenario 4: lengths `[3,1,0,0,0,0,0,0]` give the mask `0b11`. -/
theorem C4_active_mask_example :
    (ws2812_refresh example_unequal example_idle).ws2812_gpio_set_bits = 3 ∧
    popcount16 (ws2812_refresh example_unequal example_idle).ws2812_gpio_set_bits = 2 :=
  ⟨(C4_active_mask example_unequal example_idle).1.trans (by decide),
    (C4_active_mask example_unequal example_idle).2.2.2.trans (by decide)⟩

/-! ## Claim C5 -/

/-- C5 (as stated, refuted). With `length_in_bytes(0) = 0xFFFFFFFF` the value
stored in the `int` `channels_max_length` is `-1`, and after the two additions
`channels_max_length` is 4, whereas the maximum length plus 2 plus 3 is
4294967300. -/
theorem C5_max_length_counterexample :
    (ws2812_refresh example_huge example_idle).channels_max_length = 4 ∧
    ((Finset.univ.sup (fun i => (example_huge i).length_in_bytes) : Nat) : Int) + 2 + 3 =
      4294967300 := by
  decide

/-- C5 (amended). When every length is at most `INT_MAX - 5 = 2147483642` (so
that the maximum and the two additions fit the `int` that holds the result),
after `ws2812_refresh` `channels_max_length` equals
`max_i length_in_bytes(i) + 2 + 3`, whatever its value before the call. -/
theorem C5_max_length (channels : Fin 8 → led_channel_info) (s : Engine)
    (hmax : ∀ i, (channels i).length_in_bytes ≤ 2147483642) :
    (ws2812_refresh channels s).channels_max_length =
      ((Finset.univ.sup (fun i => (channels i).length_in_bytes) : Nat) : Int) + 2 + 3 :=
  refresh_max_length channels s hmax

/-- C5 (amended) at scenario 4 and at the all-empty configuration: the results
are 8 and 5. -/
theorem C5_max_length_witness :
    (∀ i, (example_unequal i).length_in_bytes ≤ 2147483642) ∧
    (ws2812_refresh example_unequal example_idle).channels_max_length = 8 ∧
    (ws2812_refresh (fun i => ⟨fun _ => 0, 0, i.val⟩) example_idle).channels_max_length = 5 := by
  refine ⟨by decide, ?_, ?_⟩
  · rw [C5_max_length example_unequal example_idle (by decide)]
    decide
  · rw [C5_max_length _ example_idle (by decide)]
    decide

/-! ## Claim C6 -/

/-- C6 (as stated, refuted). For lengths `[3,1,0,0,0,0,0,0]` the handler
reaches the end-of-frame branch after 8 events and has then performed 48
ring-buffer slot writes, whereas `8 * (3 + 5) = 64`; the other 16 writes are
the pre-fill done by `ws2812_refresh` itself. -/
theorem C6_slot_writes_counterexample :
    (run_frame 8 0 (ws2812_refresh example_unequal example_idle)).map
        (fun s => s.slot_writes - (ws2812_refresh example_unequal example_idle).slot_writes) =
      some 48 ∧
    (ws2812_refresh example_unequal example_idle).slot_writes - example_idle.slot_writes = 16 ∧
    8 * ((Finset.univ.sup (fun i => (example_unequal i).length_in_bytes) : Nat) + 5) = 64 := by
  decide

/-- C6 (amended). When every length is at most `INT_MAX - 5 = 2147483642`, one
refresh (`ws2812_refresh`, then `DMA2_Stream2_Handler` on the alternating
half-transfer / transfer-complete events until an entry takes the end-of-frame
branch) reaches that branch, the handler performs
`8 * (max_i length_in_bytes(i) + 3)` ring-buffer slot writes, `ws2812_refresh`
performs the 16 pre-fill writes, and together they perform
`8 * (max_i length_in_bytes(i) + 5)`. -/
theorem C6_slot_writes (channels : Fin 8 → led_channel_info) (s0 : Engine)
    (hmax : ∀ i, (channels i).length_in_bytes ≤ 2147483642) (fuel : Nat)
    (hfuel : (Finset.univ.sup (fun i => (channels i).length_in_bytes) : Nat) + 5 ≤ fuel) :
    ∃ s, run_frame fuel 0 (ws2812_refresh channels s0) = some s ∧
      s.slot_writes = (ws2812_refresh channels s0).slot_writes +
        8 * ((Finset.univ.sup (fun i => (channels i).length_in_bytes) : Nat) + 3) ∧
      (ws2812_refresh channels s0).slot_writes = s0.slot_writes + 16 ∧
      s.slot_writes = s0.slot_writes +
        8 * ((Finset.univ.sup (fun i => (channels i).length_in_bytes) : Nat) + 5) := by
  obtain ⟨rfp, rch, rfl', rcml, rsw, rb0, rb1⟩ := refresh_state channels s0
  have hlen := refresh_max_length channels s0 hmax
  obtain ⟨s, hs, hsw⟩ := run_frame_spec (ws2812_refresh channels s0) channels rfp rch rfl' rcml
    (fun j k hk => by
      have : k = ⟨j.val, by omega⟩ := Fin.ext hk
      rw [this]; exact rb0 j)
    (fun j k hk => by
      have : k = ⟨8 + j.val, by omega⟩ := Fin.ext hk
      rw [this]; exact rb1 j)
    ((Finset.univ.sup (fun i => (channels i).length_in_bytes) : Nat) + 3) 0 fuel
    (by rw [hlen]; push_cast; ring) (by omega)
  refine ⟨s, hs, ?_, rsw, ?_⟩
  · rw [hsw]; simp
  · rw [hsw, rsw]; simp; ring

/-- C6 (amended) at scenario 4 with fuel 8: 48 writes by the handler, 64 in all. -/
theorem C6_slot_writes_witness :
    ((∀ i, (example_unequal i).length_in_bytes ≤ 2147483642) ∧
      (Finset.univ.sup (fun i => (example_unequal i).length_in_bytes) : Nat) + 5 ≤ 8) ∧
    ∃ s, run_frame 8 0 (ws2812_refresh example_unequal example_idle) = some s ∧
      s.slot_writes = (ws2812_refresh example_unequal example_idle).slot_writes +
        8 * ((Finset.univ.sup (fun i => (example_unequal i).length_in_bytes) : Nat) + 3) ∧
      (ws2812_refresh example_unequal example_idle).slot_writes =
        example_idle.slot_writes + 16 ∧
      s.slot_writes = example_idle.slot_writes +
        8 * ((Finset.univ.sup (fun i => (example_unequal i).length_in_bytes) : Nat) + 5) :=
  ⟨by decide, C6_slot_writes example_unequal example_idle (by decide) 8 (by decide)⟩

/-! ## Claim C7 -/

/-- C7. Idempotent tail: in an entry of `DMA2_Stream2_Handler` with
`framebuffer_position >= channels_max_length`, the writes to `GPIOB->BSRR`
are one write of `active_mask << 16` for each pending half-transfer or
transfer-complete flag; every such write has an all-zero bit-set half and the
mask in its bit-reset half; `framebuffer_position` and the 16 ring-buffer
slots are unchanged. -/
theorem C7_idempotent_tail (s : Engine) (hmask : s.ws2812_gpio_set_bits < 65536)
    (htail : s.channels_max_length ≤ s.framebuffer_position) :
    bsrr_writes s =
      List.replicate (s.LISR.HTIF2.toNat + s.LISR.TCIF2.toNat) (s.ws2812_gpio_set_bits <<< 16) ∧
    (∀ v ∈ bsrr_writes s, v % 65536 = 0 ∧ v >>> 16 = s.ws2812_gpio_set_bits) ∧
    (DMA2_Stream2_Handler s).framebuffer_position = s.framebuffer_position ∧
    (DMA2_Stream2_Handler s).dma_buffer = s.dma_buffer := by
  have hw : bsrr_writes s =
      List.replicate (s.LISR.HTIF2.toNat + s.LISR.TCIF2.toNat)
        (s.ws2812_gpio_set_bits <<< 16) := by
    unfold bsrr_writes
    rw [handler_ops_eq, ← bsrr_reset_word_eq _ hmask]
    have hfp : (isr_half_transfer s).framebuffer_position = s.framebuffer_position := by
      by_cases h : s.LISR.HTIF2 = true
      · rw [isr_half_transfer_tail s h htail]
      · rw [isr_half_transfer_idle s (by simpa using h)]
    rw [hfp]
    obtain ⟨mask, buf, hal, fp, cml, chans, ⟨ht, tc, te⟩, hw, sw⟩ := s
    simp only at htail
    cases ht <;> cases tc <;> cases te <;>
      simp [htail, end_of_frame_ops, List.replicate]
  refine ⟨hw, ?_, ?_, ?_⟩
  · intro v hv
    rw [hw] at hv
    have hv' := List.eq_of_mem_replicate hv
    subst hv'
    constructor
    · rw [Nat.shiftLeft_eq]
      omega
    · exact Nat.shiftLeft_shiftRight _ _
  · obtain ⟨mask, buf, hal, fp, cml, chans, ⟨ht, tc, te⟩, hw, sw⟩ := s
    simp only at htail
    cases ht <;> cases tc <;> cases te <;>
      simp [DMA2_Stream2_Handler, isr_half_transfer, isr_transfer_complete,
        isr_transfer_error, lifcr_write, emit, htail]
  · obtain ⟨mask, buf, hal, fp, cml, chans, ⟨ht, tc, te⟩, hw, sw⟩ := s
    simp only at htail
    cases ht <;> cases tc <;> cases te <;>
      simp [DMA2_Stream2_Handler, isr_half_transfer, isr_transfer_complete,
        isr_transfer_error, lifcr_write, emit, htail]

/-- C7 in the tail of scenario 4 with both refill flags pending: two writes of
`0b11 << 16`. -/
theorem C7_idempotent_tail_witness :
    (example_tail.ws2812_gpio_set_bits < 65536 ∧
      example_tail.channels_max_length ≤ example_tail.framebuffer_position) ∧
    bsrr_writes example_tail = [3 <<< 16, 3 <<< 16] ∧
    (∀ v ∈ bsrr_writes example_tail, v % 65536 = 0 ∧ v >>> 16 = 3) :=
  ⟨by decide,
    (C7_idempotent_tail example_tail (by decide) (by decide)).1,
    (C7_idempotent_tail example_tail (by decide) (by decide)).2.1⟩

/-! ## Claim C8 -/

/-- C8 (as stated, refuted). With the `int` counter `hal_dma_error_flag` at
`INT_MAX = 2147483647` and the transfer-error flag asserted, the counter after
the handler is `-2147483648`, not `2147483648`. -/
theorem C8_dma_error_counterexample :
    example_error_saturated.LISR.TEIF2 = true ∧
    (DMA2_Stream2_Handler example_error_saturated).hal_dma_error_flag = -2147483648 ∧
    example_error_saturated.hal_dma_error_flag + 1 = 2147483648 := by
  decide

/-- C8 (amended). For every engine state whose `int` counter
`hal_dma_error_flag` is below `INT_MAX`, an entry of `DMA2_Stream2_Handler`
with the transfer-error flag asserted increments the counter by exactly 1 and
clears that flag (one more write, `DMA_LIFCR_CTEIF2`, to `DMA2->LIFCR`), and
`framebuffer_position`, `channels_max_length`, the active mask, the ring
buffer, the other two flags and the slot-write count are those of the same
entry without the error flag; without the error flag the counter is unchanged. -/
theorem C8_dma_error (s : Engine)
    (hcnt : -2147483648 ≤ s.hal_dma_error_flag ∧ s.hal_dma_error_flag < 2147483647) :
    (DMA2_Stream2_Handler { s with LISR := { s.LISR with TEIF2 := true } }).hal_dma_error_flag =
      s.hal_dma_error_flag + 1 ∧
    (DMA2_Stream2_Handler { s with LISR := { s.LISR with TEIF2 := true } }).LISR.TEIF2 = false ∧
    (DMA2_Stream2_Handler { s with LISR := { s.LISR with TEIF2 := true } }).hw =
      (DMA2_Stream2_Handler { s with LISR := { s.LISR with TEIF2 := false } }).hw ++
        [HwOp.writeMask Reg.DMA2_LIFCR [Mask.DMA_LIFCR_CTEIF2]] ∧
    (DMA2_Stream2_Handler { s with LISR := { s.LISR with TEIF2 := true } }).framebuffer_position =
      (DMA2_Stream2_Handler { s with LISR := { s.LISR with TEIF2 := false } }).framebuffer_position ∧
    (DMA2_Stream2_Handler { s with LISR := { s.LISR with TEIF2 := true } }).channels_max_length =
      (DMA2_Stream2_Handler { s with LISR := { s.LISR with TEIF2 := false } }).channels_max_length ∧
    (DMA2_Stream2_Handler { s with LISR := { s.LISR with TEIF2 := true } }).ws2812_gpio_set_bits =
      (DMA2_Stream2_Handler { s with LISR := { s.LISR with TEIF2 := false } }).ws2812_gpio_set_bits ∧
    (DMA2_Stream2_Handler { s with LISR := { s.LISR with TEIF2 := true } }).dma_buffer =
      (DMA2_Stream2_Handler { s with LISR := { s.LISR with TEIF2 := false } }).dma_buffer ∧
    (DMA2_Stream2_Handler { s with LISR := { s.LISR with TEIF2 := true } }).LISR.HTIF2 =
      (DMA2_Stream2_Handler { s with LISR := { s.LISR with TEIF2 := false } }).LISR.HTIF2 ∧
    (DMA2_Stream2_Handler { s with LISR := { s.LISR with TEIF2 := true } }).LISR.TCIF2 =
      (DMA2_Stream2_Handler { s with LISR := { s.LISR with TEIF2 := false } }).LISR.TCIF2 ∧
    (DMA2_Stream2_Handler { s with LISR := { s.LISR with TEIF2 := true } }).slot_writes =
      (DMA2_Stream2_Handler { s with LISR := { s.LISR with TEIF2 := false } }).slot_writes ∧
    (DMA2_Stream2_Handler { s with LISR := { s.LISR with TEIF2 := false } }).hal_dma_error_flag =
      s.hal_dma_error_flag := by
  obtain ⟨mask, buf, hal, fp, cml, chans, ⟨ht, tc, te⟩, hw, sw⟩ := s
  simp only at hcnt
  have hinc : toI32 (hal + 1) = hal + 1 := by unfold toI32; omega
  have h8 : loop_offsets 8 = [0] := by decide
  by_cases h1 : cml ≤ fp <;> by_cases h2 : cml ≤ toI32 (fp + 1) <;>
    cases ht <;> cases tc <;>
    simp [DMA2_Stream2_Handler, isr_half_transfer, isr_transfer_complete,
      isr_transfer_error, lifcr_write, emit, refill, loop_offsets_fill, h8,
      DMA_BUFFER_FILL_SIZE, DMA_BUFFER_SIZE, h1, h2, hinc]

/-- C8 (amended) mid-frame in scenario 4: the counter goes from 41 to 42. -/
theorem C8_dma_error_witness :
    (-2147483648 ≤ example_streaming.hal_dma_error_flag ∧
      example_streaming.hal_dma_error_flag < 2147483647) ∧
    (DMA2_Stream2_Handler
      { example_streaming with LISR := { example_streaming.LISR with TEIF2 := true } }
      ).hal_dma_error_flag = 41 + 1 :=
  ⟨by decide, (C8_dma_error example_streaming (by decide)).1⟩

/-! ## Claim C9 -/

/-- C9. Double-buffer ordering invariant: starting from the state
`ws2812_refresh` leaves and serving the events half-transfer,
transfer-complete, half-transfer, ... with `DMA2_Stream2_Handler`, for every
`n` with `n + 2 <= channels_max_length`, before the `n`-th event the cursor is
`n + 2`, ring half `n mod 2` holds the transposition of byte `n` and the other
half the transposition of byte `n + 1`; and when the `n`-th event refills
(`n + 3 <= channels_max_length`) it leaves the half holding byte `n + 1`
untouched. -/
theorem C9_double_buffer_order (channels : Fin 8 → led_channel_info) (s0 : Engine) (n : Nat)
    (hn : (n : Int) + 2 ≤ (ws2812_refresh channels s0).channels_max_length) :
    (isr_run n (ws2812_refresh channels s0)).framebuffer_position = (n : Int) + 2 ∧
    (∀ j : Fin 8,
      (isr_run n (ws2812_refresh channels s0)).dma_buffer ⟨8 * (n % 2) + j.val, by omega⟩ =
        transposed channels (n : Int) j) ∧
    (∀ j : Fin 8,
      (isr_run n (ws2812_refresh channels s0)).dma_buffer
          ⟨8 * ((n + 1) % 2) + j.val, by omega⟩ =
        transposed channels ((n : Int) + 1) j) ∧
    ((n : Int) + 3 ≤ (ws2812_refresh channels s0).channels_max_length →
      ∀ j : Fin 8,
        (isr_run (n + 1) (ws2812_refresh channels s0)).dma_buffer
            ⟨8 * ((n + 1) % 2) + j.val, by omega⟩ =
          (isr_run n (ws2812_refresh channels s0)).dma_buffer
            ⟨8 * ((n + 1) % 2) + j.val, by omega⟩) := by
  obtain ⟨rfp, rch, rfl', rcml, _, rb0, rb1⟩ := refresh_state channels s0
  have hinv := fun m hm => isr_run_invariant channels (ws2812_refresh channels s0) rfp rch rfl'
    rcml
    (fun j k hk => by
      have : k = ⟨j.val, by omega⟩ := Fin.ext hk
      rw [this]; exact rb0 j)
    (fun j k hk => by
      have : k = ⟨8 + j.val, by omega⟩ := Fin.ext hk
      rw [this]; exact rb1 j) m hm
  obtain ⟨ifp, _, _, _, _, _, ib0, ib1⟩ := hinv n hn
  refine ⟨ifp, fun j => ib0 j _ rfl, fun j => ib1 j _ rfl, ?_⟩
  intro hn3 j
  obtain ⟨_, _, _, _, _, _, jb0, _⟩ := hinv (n + 1) (by push_cast; omega)
  rw [jb0 j _ rfl, ib1 j _ rfl]
  push_cast
  rfl

/-- C9 in scenario 4 before event 3: the cursor is 5. -/
theorem C9_double_buffer_order_witness :
    ((3 : Nat) : Int) + 2 ≤ (ws2812_refresh example_unequal example_idle).channels_max_length ∧
    (isr_run 3 (ws2812_refresh example_unequal example_idle)).framebuffer_position =
      ((3 : Nat) : Int) + 2 :=
  ⟨by decide, (C9_double_buffer_order example_unequal example_idle 3 (by decide)).1⟩

/-! ## Claim C10 -/

/-- C10. Streaming-to-latching transition. The register accesses of one entry
of `DMA2_Stream2_Handler` contain the end-of-frame sequence (timer stopped,
the DMA requests UDE/CC1DE/CC2DE and the compare outputs CC1E/CC2E disabled,
active mask written to the bit-reset half, ARR set to
`RESET_TIMER_PERIOD - 1 = 240 * 210 - 1`, update interrupt enabled, timer
restarted) if and only if the transfer-complete flag is pending and
`framebuffer_position >= channels_max_length` when the transfer-complete
check is reached; in every other entry, in particular for a half-transfer
event alone, no timer register is accessed; and a transfer-complete event
alone with cursor below `channels_max_length` rewrites slots 8..15 with the
transposition of byte `framebuffer_position`, leaves slots 0..7, the mask and
`channels_max_length` unchanged, writes neither `BSRR` nor a timer register,
and advances the cursor by 1. -/
theorem C10_streaming_to_latching (s : Engine) :
    (DMA2_Stream2_Handler s).hw = s.hw ++ handler_ops s ∧
    (end_of_frame_ops s.ws2812_gpio_set_bits <:+: handler_ops s ↔
      (s.LISR.TCIF2 = true ∧
        s.channels_max_length ≤ (isr_half_transfer s).framebuffer_position)) ∧
    (RESET_TIMER_PERIOD - 1 = 240 * WS2812_TIMER_PERIOD - 1 ∧ WS2812_TIMER_PERIOD = 210) ∧
    end_of_frame_ops s.ws2812_gpio_set_bits =
      [ HwOp.clearBits Reg.TIM1_CR1 [Mask.TIM_CR1_CEN],
        HwOp.clearBits Reg.TIM1_DIER
          [Mask.TIM_DIER_UDE, Mask.TIM_DIER_CC1DE, Mask.TIM_DIER_CC2DE],
        HwOp.clearBits Reg.TIM1_CCER [Mask.TIM_CCER_CC1E, Mask.TIM_CCER_CC2E],
        HwOp.write Reg.GPIOB_BSRR ((s.ws2812_gpio_set_bits <<< 16) % 4294967296),
        HwOp.clearBits Reg.TIM1_CR1 [Mask.TIM_CR1_UDIS, Mask.TIM_CR1_URS],
        HwOp.write Reg.TIM1_ARR 50399,
        HwOp.writeMask Reg.TIM1_EGR [Mask.TIM_EGR_UG],
        HwOp.write Reg.TIM1_SR 0,
        HwOp.setBits Reg.TIM1_DIER [Mask.TIM_DIER_UIE],
        HwOp.setBits Reg.TIM1_CR1 [Mask.TIM_CR1_CEN] ] ∧
    (¬ (s.LISR.TCIF2 = true ∧
        s.channels_max_length ≤ (isr_half_transfer s).framebuffer_position) →
      ∀ op ∈ handler_ops s, op.reg.isTIM1 = false) ∧
    (s.LISR.TCIF2 = false → ∀ op ∈ handler_ops s, op.reg.isTIM1 = false) ∧
    (s.LISR.TCIF2 = true → s.LISR.HTIF2 = false →
      s.framebuffer_position < s.channels_max_length →
      IsInt32 s.framebuffer_position → IsInt32 s.channels_max_length →
      (DMA2_Stream2_Handler s).framebuffer_position = s.framebuffer_position + 1 ∧
      (∀ j : Fin 8, (DMA2_Stream2_Handler s).dma_buffer ⟨8 + j.val, by omega⟩ =
        transposed s.led_channels s.framebuffer_position j) ∧
      (∀ k : Fin 16, k.val < 8 → (DMA2_Stream2_Handler s).dma_buffer k = s.dma_buffer k) ∧
      (DMA2_Stream2_Handler s).channels_max_length = s.channels_max_length ∧
      (DMA2_Stream2_Handler s).ws2812_gpio_set_bits = s.ws2812_gpio_set_bits ∧
      bsrr_writes s = [] ∧
      (∀ op ∈ handler_ops s, op.reg.isTIM1 = false)) := by
  refine ⟨handler_hw s, ?_, by decide, rfl, handler_ops_no_timer s, ?_, ?_⟩
  · constructor
    · intro hinfix
      by_contra hcond
      have hmem := hinfix.subset (end_of_frame_ops_arr s.ws2812_gpio_set_bits)
      have := handler_ops_no_timer s hcond _ hmem
      simp [HwOp.reg, Reg.isTIM1] at this
    · rintro ⟨htc, hle⟩
      rw [handler_ops_eq]
      simp only [htc, if_true, hle]
      generalize (if s.LISR.HTIF2 = true then
        HwOp.writeMask Reg.DMA2_LIFCR [Mask.DMA_LIFCR_CHTIF2] ::
          (if s.channels_max_length ≤ s.framebuffer_position then
            [HwOp.write Reg.GPIOB_BSRR (bsrr_reset_word s.ws2812_gpio_set_bits)] else [])
        else []) = pre
      generalize (if s.LISR.TEIF2 = true then
        [HwOp.writeMask Reg.DMA2_LIFCR [Mask.DMA_LIFCR_CTEIF2]] else []) = post
      exact ⟨pre ++ [HwOp.writeMask Reg.DMA2_LIFCR [Mask.DMA_LIFCR_CTCIF2]], post, by simp⟩
  · intro htc
    exact handler_ops_no_timer s (fun h => by simp [htc] at h)
  · intro htc hht hlt hfp hcml
    have hidle := isr_half_transfer_idle s hht
    have hno : ¬ (s.LISR.TCIF2 = true ∧
        s.channels_max_length ≤ (isr_half_transfer s).framebuffer_position) := by
      rw [hidle]
      exact fun h => absurd h.2 (not_le.mpr hlt)
    have hinc : toI32 (s.framebuffer_position + 1) = s.framebuffer_position + 1 := by
      unfold IsInt32 at hfp hcml
      unfold toI32
      omega
    have hstate := isr_transfer_complete_refill s htc hlt
    have hbuf : (DMA2_Stream2_Handler s).dma_buffer =
        fill_dma_buffer s.dma_buffer 8 s.framebuffer_position s.led_channels := by
      unfold DMA2_Stream2_Handler
      rw [hidle, hstate]
      unfold isr_transfer_error
      simp only [lifcr_write]
      split <;> rfl
    refine ⟨?_, ?_, ?_, ?_, ?_, ?_, handler_ops_no_timer s hno⟩
    · unfold DMA2_Stream2_Handler
      rw [hidle, hstate]
      unfold isr_transfer_error
      simp only [lifcr_write]
      split <;> exact hinc
    · intro j
      rw [hbuf]
      exact fill_dma_buffer_slot _ 8 _ _ j _
    · intro k hk
      rw [hbuf]
      exact fill_dma_buffer_other _ 8 _ _ k (Or.inl hk)
    · unfold DMA2_Stream2_Handler
      rw [hidle, hstate]
      unfold isr_transfer_error
      simp only [lifcr_write]
      split <;> rfl
    · unfold DMA2_Stream2_Handler
      rw [hidle, hstate]
      unfold isr_transfer_error
      simp only [lifcr_write]
      split <;> rfl
    · unfold bsrr_writes
      rw [handler_ops_eq, hidle]
      simp [htc, hht, not_le.mpr hlt]

/-- C10 in scenario 4: the tail entry performs the end-of-frame sequence, the
mid-frame transfer-complete entry advances the cursor from 3 to 4. -/
theorem C10_streaming_to_latching_witness :
    (end_of_frame_ops example_tail.ws2812_gpio_set_bits <:+: handler_ops example_tail) ∧
    (example_streaming.LISR.TCIF2 = true ∧ example_streaming.LISR.HTIF2 = false ∧
      example_streaming.framebuffer_position < example_streaming.channels_max_length ∧
      IsInt32 example_streaming.framebuffer_position ∧
      IsInt32 example_streaming.channels_max_length) ∧
    (DMA2_Stream2_Handler example_streaming).framebuffer_position = 3 + 1 :=
  ⟨(C10_streaming_to_latching example_tail).2.1.mpr (by decide),
    by decide,
    ((C10_streaming_to_latching example_streaming).2.2.2.2.2.2 (by decide) (by decide)
      (by decide) (by decide) (by decide)).1⟩

end WS28xx
